import Mathlib

/-!
Verification development for the OIA website backend (FastAPI + MongoDB).

The program stores schemaless documents (dicts mapping string field names to
values) in collection-per-resource-type lists.  We shallowly embed the
repository layer (`database.py`) and the relevant route handlers
(`routes.py`): a document is an association list of field name / value
pairs, a collection is a list of documents, and the MongoDB primitives
(`find`, `find_one`, `update_one` with `$set`, `delete_one`, `count_documents`,
`sort`/`skip`/`limit`) are modelled as pure functions on collections.
Stateful operations return the new collection state explicitly.
-/

/-- A MongoDB/Python value as it appears in this program's documents:
strings, ints, booleans, datetimes (modelled as a tick count), lists of
strings, and Python `None` (the absent-value sentinel used by the
partial-update policy). -/
inductive Val where
  | str (s : String)
  | int (n : Int)
  | bool (b : Bool)
  | time (t : Nat)
  | strList (l : List String)
  | none
  deriving DecidableEq, Repr

/-- A document: an ordered association list from field names to values,
mirroring a Python dict (insertion ordered, no duplicate keys in practice;
lemmas take explicit multiplicity hypotheses where it matters). -/
def Doc : Type := List (String × Val)

instance : DecidableEq Doc := inferInstanceAs (DecidableEq (List (String × Val)))

instance : Repr Doc := inferInstanceAs (Repr (List (String × Val)))

namespace Doc

/-- `d[k]` lookup: first entry with the given key, `none` if absent. -/
def get (d : Doc) (k : String) : Option Val :=
  match d with
  | [] => Option.none
  | (k', v) :: t => if k' = k then some v else get t k

/-- Lookup with a default (used where Python would raise `KeyError`;
the claims never depend on the defaulted path). -/
def getD (d : Doc) (k : String) : Val :=
  (d.get k).getD Val.none

/-- Python dict assignment `d[k] = v`: replace the first entry with key `k`
in place, or append a new entry. -/
def set (d : Doc) (k : String) (v : Val) : Doc :=
  match d with
  | [] => [(k, v)]
  | (k', v') :: t => if k' = k then (k', v) :: t else (k', v') :: set t k v

/-- Number of entries carrying key `k` (a real Python dict always has 0 or 1). -/
def countKey (d : Doc) (k : String) : Nat :=
  match d with
  | [] => 0
  | (k', _) :: t => (if k' = k then 1 else 0) + countKey t k

/-- Keep the entries whose value satisfies `p`
(the dict comprehensions `{k: v for k, v in d.items() if p(v)}`). -/
def filterVals (d : Doc) (p : Val → Bool) : Doc :=
  List.filter (fun kv => p kv.2) d

@[simp] theorem get_nil (k : String) : get ([] : Doc) k = Option.none := rfl

@[simp] theorem get_cons (k' : String) (v : Val) (t : Doc) (k : String) :
    get ((k', v) :: t) k = if k' = k then some v else get t k := rfl

@[simp] theorem set_nil (k : String) (v : Val) : set ([] : Doc) k v = [(k, v)] := rfl

@[simp] theorem set_cons (k' : String) (v' : Val) (t : Doc) (k : String) (v : Val) :
    set ((k', v') :: t) k v =
      if k' = k then (k', v) :: t else (k', v') :: set t k v := rfl

@[simp] theorem countKey_nil (k : String) : countKey ([] : Doc) k = 0 := rfl

@[simp] theorem countKey_cons (k' : String) (v : Val) (t : Doc) (k : String) :
    countKey ((k', v) :: t) k = (if k' = k then 1 else 0) + countKey t k := rfl

@[simp] theorem get_set_self (d : Doc) (k : String) (v : Val) :
    get (set d k v) k = some v := by
  induction d with
  | nil => simp [set, get]
  | cons kv t ih =>
    obtain ⟨k₀, v₀⟩ := kv
    by_cases h₀ : k₀ = k <;> simp [set, get, h₀, ih]

theorem get_set_ne (d : Doc) (k k' : String) (v : Val) (h : k ≠ k') :
    get (set d k v) k' = get d k' := by
  induction d with
  | nil => simp [set, get, h]
  | cons kv t ih =>
    obtain ⟨k₀, v₀⟩ := kv
    by_cases h₀ : k₀ = k <;> simp [set, get, h₀, h, ih]

theorem countKey_set_ne (d : Doc) (k k' : String) (v : Val) (h : k ≠ k') :
    countKey (set d k v) k' = countKey d k' := by
  induction d with
  | nil => simp [set, countKey, h]
  | cons kv t ih =>
    obtain ⟨k₀, v₀⟩ := kv
    by_cases h₀ : k₀ = k <;> simp [set, countKey, h₀, h, ih]

theorem countKey_set_self (d : Doc) (k : String) (v : Val)
    (h : countKey d k ≤ 1) : countKey (set d k v) k = 1 := by
  induction d with
  | nil => simp [set, countKey]
  | cons kv t ih =>
    obtain ⟨k₀, v₀⟩ := kv
    by_cases h₀ : k₀ = k
    · simp only [countKey_cons, if_pos h₀] at h
      have ht : countKey t k = 0 := by omega
      simp [set, countKey, h₀, ht]
    · simp only [countKey_cons, if_neg h₀, Nat.zero_add] at h
      simp [set, countKey, h₀, ih h]

theorem countKey_eq_zero_of_get_eq_none (d : Doc) (k : String)
    (h : get d k = Option.none) : countKey d k = 0 := by
  induction d with
  | nil => simp [countKey]
  | cons kv t ih =>
    obtain ⟨k₀, v₀⟩ := kv
    by_cases h₀ : k₀ = k
    · simp [get, h₀] at h
    · simp only [get_cons, if_neg h₀] at h
      simp [countKey, h₀, ih h]

theorem get_eq_none_of_countKey_eq_zero (d : Doc) (k : String)
    (h : countKey d k = 0) : get d k = Option.none := by
  induction d with
  | nil => simp
  | cons kv t ih =>
    obtain ⟨k₀, v₀⟩ := kv
    by_cases h₀ : k₀ = k
    · simp [countKey, h₀] at h
    · simp only [countKey_cons, if_neg h₀, Nat.zero_add] at h
      simp [get, h₀, ih h]

/-- Filtering by value keeps the first surviving entry of a key in place:
if the first `k`-entry's value survives the filter, lookup is unchanged. -/
theorem get_filterVals_of_pos (d : Doc) (p : Val → Bool) (k : String) (v : Val)
    (hget : get d k = some v) (hp : p v = true) :
    get (filterVals d p) k = some v := by
  induction d with
  | nil => simp [get] at hget
  | cons kv t ih =>
    obtain ⟨k₀, v₀⟩ := kv
    by_cases h₀ : k₀ = k
    · simp only [get_cons, if_pos h₀, Option.some.injEq] at hget
      subst hget
      simp [filterVals, List.filter, hp, get, h₀]
    · simp only [get_cons, if_neg h₀] at hget
      by_cases hv : p v₀
      · simpa [filterVals, List.filter, hv, get, h₀] using ih hget
      · simpa [filterVals, List.filter, hv] using ih hget

theorem countKey_filterVals_le (d : Doc) (p : Val → Bool) (k : String) :
    countKey (filterVals d p) k ≤ countKey d k := by
  induction d with
  | nil => simp [filterVals, countKey]
  | cons kv t ih =>
    obtain ⟨k₀, v₀⟩ := kv
    by_cases hv : p v₀
    · simp only [filterVals, List.filter, hv, countKey_cons]
      exact Nat.add_le_add_left ih _
    · simp only [filterVals, List.filter, hv, countKey_cons]
      calc countKey (filterVals t p) k ≤ countKey t k := ih
        _ ≤ (if k₀ = k then 1 else 0) + countKey t k := Nat.le_add_left _ _

/-- If a key occurs at most once and its (first) value is filtered out, the
key vanishes entirely from the filtered dict. -/
theorem countKey_filterVals_eq_zero (d : Doc) (p : Val → Bool) (k : String) (v : Val)
    (hget : get d k = some v) (hp : p v = false) (hcount : countKey d k ≤ 1) :
    countKey (filterVals d p) k = 0 := by
  induction d with
  | nil => simp [get] at hget
  | cons kv t ih =>
    obtain ⟨k₀, v₀⟩ := kv
    by_cases h₀ : k₀ = k
    · simp only [get_cons, if_pos h₀, Option.some.injEq] at hget
      subst hget
      simp only [countKey_cons, if_pos h₀] at hcount
      have ht : countKey t k = 0 := by omega
      have hz : countKey (filterVals t p) k = 0 :=
        Nat.le_zero.mp (ht ▸ countKey_filterVals_le t p k)
      simp only [filterVals] at hz
      simp [filterVals, List.filter, hp, countKey, hz]
    · simp only [get_cons, if_neg h₀] at hget
      simp only [countKey_cons, if_neg h₀, Nat.zero_add] at hcount
      by_cases hv : p v₀
      · simp [filterVals, List.filter, hv, countKey, h₀]
        exact ih hget hcount
      · simp only [filterVals, List.filter, hv]
        exact ih hget hcount

end Doc

/-- Python `str()` rendering of a value (used for `str(doc['_id'])`). -/
def pyStr : Val → String
  | .str s => s
  | .int n => toString n
  | .bool b => if b then "True" else "False"
  | .time t => toString t
  | .strList l => toString l
  | .none => "None"

/-- Python `str.strip()`: remove leading and trailing whitespace
(structurally, so that concrete instances compute). -/
def pyStrip (s : String) : String :=
  ⟨((s.data.dropWhile Char.isWhitespace).reverse.dropWhile Char.isWhitespace).reverse⟩

/-- Python `s.startswith(pre)` (structurally, so concrete instances
compute). -/
def pyStartswith (s pre : String) : Bool :=
  pre.data.isPrefixOf s.data

/-- Python slicing `s[n:]` (by code point). -/
def pyDrop (s : String) (n : Nat) : String :=
  ⟨s.data.drop n⟩

/-- Python truthiness of a value (`if current_member.get('image'):`). -/
def Val.truthy : Val → Bool
  | .str s => s ≠ ""
  | .int n => n ≠ 0
  | .bool b => b
  | .time _ => true
  | .strList l => !l.isEmpty
  | .none => false

/-- Python slicing `s[:n]` on strings (by code point, as Python does). -/
def pySlice (s : String) (n : Nat) : String :=
  ⟨s.data.take n⟩

theorem length_pySlice (s : String) (n : Nat) : (pySlice s n).length ≤ n := by
  have h : (pySlice s n).length = (s.data.take n).length := rfl
  rw [h, List.length_take]
  exact Nat.min_le_left _ _

/-- Cross-constructor rank used by the document sort comparator (stand-in for
the BSON type order; no claim depends on the relative order of values). -/
def Val.rank : Val → Nat
  | .none => 0
  | .bool _ => 1
  | .int _ => 2
  | .time _ => 3
  | .str _ => 4
  | .strList _ => 5

/-- A total boolean comparison on values, used to model the store's sort. -/
def valLe (a b : Val) : Bool :=
  if Val.rank a = Val.rank b then
    match a, b with
    | .int x, .int y => decide (x ≤ y)
    | .time x, .time y => decide (x ≤ y)
    | .str x, .str y => decide (x ≤ y)
    | .bool x, .bool y => !x || y
    | _, _ => true
  else decide (Val.rank a ≤ Val.rank b)

/-- Comparator used by `.sort(key, direction)`: compare the documents'
values at `key` (missing keys sort as the absent value), flipped when the
direction is descending (`-1`). -/
def docLe (key : String) (asc : Bool) (a b : Doc) : Bool :=
  if asc then valLe (Doc.getD a key) (Doc.getD b key)
  else valLe (Doc.getD b key) (Doc.getD a key)

/-- Insertion step of the sort model. -/
def insertLe (le : Doc → Doc → Bool) (d : Doc) : List Doc → List Doc
  | [] => [d]
  | e :: t => if le d e then d :: e :: t else e :: insertLe le d t

/-- Insertion sort used to model the store's stable `sort` stage. -/
def sortWith (le : Doc → Doc → Bool) : List Doc → List Doc
  | [] => []
  | d :: t => insertLe le d (sortWith le t)

/-- `.sort(key, dir)` on a cursor (`dir` is `1` or `-1` in the program). -/
def mongoSort (coll : List Doc) (key : String) (dir : Int) : List Doc :=
  sortWith (docLe key (decide (0 ≤ dir))) coll

theorem length_insertLe (le : Doc → Doc → Bool) (d : Doc) (l : List Doc) :
    (insertLe le d l).length = l.length + 1 := by
  induction l with
  | nil => rfl
  | cons e t ih =>
    by_cases h : le d e <;> simp [insertLe, h, ih]

theorem length_sortWith (le : Doc → Doc → Bool) (l : List Doc) :
    (sortWith le l).length = l.length := by
  induction l with
  | nil => rfl
  | cons d t ih => simp [sortWith, length_insertLe, ih]

theorem length_mongoSort (coll : List Doc) (key : String) (dir : Int) :
    (mongoSort coll key dir).length = coll.length := by
  simp [mongoSort, length_sortWith]

-- ========================
-- Store primitives (MongoDB boundary)
-- ========================

/-- Effect of a `$set` specification on one document. -/
def applySet (d : Doc) (fields : Doc) : Doc :=
  fields.foldl (fun acc kv => Doc.set acc kv.1 kv.2) d

@[simp] theorem applySet_nil (d : Doc) : applySet d ([] : Doc) = d := rfl

@[simp] theorem applySet_cons (d : Doc) (kv : String × Val) (t : Doc) :
    applySet d (kv :: t) = applySet (Doc.set d kv.1 kv.2) t := rfl

theorem applySet_get_of_countKey_zero (fields : Doc) (d : Doc) (k : String)
    (h : Doc.countKey fields k = 0) :
    Doc.get (applySet d fields) k = Doc.get d k := by
  induction fields generalizing d with
  | nil => rfl
  | cons kv t ih =>
    obtain ⟨k₀, v₀⟩ := kv
    by_cases h₀ : k₀ = k
    · simp [Doc.countKey, h₀] at h
    · simp only [Doc.countKey_cons, if_neg h₀, Nat.zero_add] at h
      rw [applySet_cons, ih _ h, Doc.get_set_ne _ _ _ _ h₀]

theorem applySet_get_of_unique (fields : Doc) (d : Doc) (k : String) (v : Val)
    (hget : Doc.get fields k = some v) (hcount : Doc.countKey fields k ≤ 1) :
    Doc.get (applySet d fields) k = some v := by
  induction fields generalizing d with
  | nil => simp [Doc.get] at hget
  | cons kv t ih =>
    obtain ⟨k₀, v₀⟩ := kv
    by_cases h₀ : k₀ = k
    · simp only [Doc.get_cons, if_pos h₀, Option.some.injEq] at hget
      simp only [Doc.countKey_cons, if_pos h₀] at hcount
      have ht : Doc.countKey t k = 0 := by omega
      rw [applySet_cons, applySet_get_of_countKey_zero t _ k ht, h₀,
        Doc.get_set_self, hget]
    · simp only [Doc.get_cons, if_neg h₀] at hget
      simp only [Doc.countKey_cons, if_neg h₀, Nat.zero_add] at hcount
      rw [applySet_cons]
      exact ih _ hget hcount

/-- `collection.update_one(query, {'$set': fields})`: apply the `$set` to the
first matching document.  The second component is `modified_count`: `1`
exactly when a document matched and the `$set` actually changed it. -/
def mongoUpdateOne (coll : List Doc) (q : Doc → Bool) (fields : Doc) :
    List Doc × Nat :=
  match coll with
  | [] => ([], 0)
  | d :: t =>
    if q d then
      let d' := applySet d fields
      (d' :: t, if d' = d then 0 else 1)
    else
      let r := mongoUpdateOne t q fields
      (d :: r.1, r.2)

theorem mongoUpdateOne_of_find_none (coll : List Doc) (q : Doc → Bool)
    (fields : Doc) (h : coll.find? q = Option.none) :
    mongoUpdateOne coll q fields = (coll, 0) := by
  induction coll with
  | nil => rfl
  | cons d t ih =>
    rw [List.find?_cons] at h
    cases hq : q d with
    | true => simp [hq] at h
    | false =>
      simp only [hq] at h
      simp [mongoUpdateOne, hq, ih h]

theorem mongoUpdateOne_find (coll : List Doc) (q : Doc → Bool) (fields : Doc)
    (hq : ∀ d, q (applySet d fields) = q d) :
    (mongoUpdateOne coll q fields).1.find? q =
      (coll.find? q).map (fun d => applySet d fields) := by
  induction coll with
  | nil => rfl
  | cons d t ih =>
    cases hqd : q d with
    | true =>
      simp [mongoUpdateOne, hqd, List.find?_cons, hq d]
    | false =>
      simp [mongoUpdateOne, hqd, List.find?_cons, ih]

theorem mongoUpdateOne_modified (coll : List Doc) (q : Doc → Bool) (fields : Doc)
    (d : Doc) (h : coll.find? q = some d) :
    (mongoUpdateOne coll q fields).2 = if applySet d fields = d then 0 else 1 := by
  induction coll with
  | nil => simp at h
  | cons e t ih =>
    cases hqe : q e with
    | true =>
      rw [List.find?_cons, hqe] at h
      simp only [Option.some.injEq] at h
      subst h
      simp [mongoUpdateOne, hqe]
    | false =>
      rw [List.find?_cons, hqe] at h
      simp only [mongoUpdateOne, hqe, Bool.false_eq_true, if_false]
      exact ih h

/-- `collection.delete_one(query)`: remove the first matching document;
the second component is `deleted_count`. -/
def mongoDeleteOne (coll : List Doc) (q : Doc → Bool) : List Doc × Nat :=
  match coll with
  | [] => ([], 0)
  | d :: t =>
    if q d then (t, 1)
    else
      let r := mongoDeleteOne t q
      (d :: r.1, r.2)

theorem mongoDeleteOne_of_find_none (coll : List Doc) (q : Doc → Bool)
    (h : coll.find? q = Option.none) : mongoDeleteOne coll q = (coll, 0) := by
  induction coll with
  | nil => rfl
  | cons d t ih =>
    rw [List.find?_cons] at h
    cases hq : q d with
    | true => simp [hq] at h
    | false =>
      simp only [hq] at h
      simp [mongoDeleteOne, hq, ih h]

theorem mongoDeleteOne_deleted (coll : List Doc) (q : Doc → Bool) (d : Doc)
    (h : coll.find? q = some d) : (mongoDeleteOne coll q).2 = 1 := by
  induction coll with
  | nil => simp at h
  | cons e t ih =>
    rw [List.find?_cons] at h
    cases hqe : q e with
    | true => simp [mongoDeleteOne, hqe]
    | false =>
      simp only [hqe] at h
      simp only [mongoDeleteOne, hqe, Bool.false_eq_true, if_false]
      exact ih h

theorem mongoDeleteOne_filter_length (coll : List Doc) (q : Doc → Bool) :
    ((mongoDeleteOne coll q).1.filter q).length =
      (coll.filter q).length - (mongoDeleteOne coll q).2 := by
  induction coll with
  | nil => rfl
  | cons d t ih =>
    cases hq : q d with
    | true => simp [mongoDeleteOne, hq, List.filter]
    | false => simp [mongoDeleteOne, hq, List.filter, ih]

-- ========================
-- Repository operations (database.py)
-- ========================

/-- The `{'id': value}` point query used throughout the repository. -/
def idMatch (idv : String) (d : Doc) : Bool :=
  decide (Doc.get d "id" = some (Val.str idv))

/-- The `{'key': value}` point query used by the static-content operations. -/
def keyMatch (keyv : String) (d : Doc) : Bool :=
  decide (Doc.get d "key" = some (Val.str keyv))

/-- `doc['_id'] = str(doc['_id'])`: the store's internal id is surfaced as a
string-converted auxiliary field. -/
def stringifyOid (d : Doc) : Doc :=
  Doc.set d "_id" (Val.str (pyStr (Doc.getD d "_id")))

/-- The per-item loop of `get_programs`: stringify `_id` and default a
missing logical `id` to it. -/
def programView (d : Doc) : Doc :=
  let d := stringifyOid d
  if (Doc.get d "id").isSome then d else Doc.set d "id" (Doc.getD d "_id")

/-- The pagination envelope returned by every list operation. -/
structure Paginated where
  items : List Doc
  total : Nat
  page : Nat
  pageSize : Nat
  totalPages : Nat
  deriving Repr

/-- Query `{'status': 'Active'}` (or `{}`) built by `get_programs`. -/
def programsQuery (active_only : Bool) (d : Doc) : Bool :=
  if active_only then decide (Doc.get d "status" = some (Val.str "Active")) else true

/-- `DatabaseOperations.get_programs`: count under the filter, then
sort by `createdAt` descending, skip `(page-1)*page_size`, limit `page_size`. -/
def get_programs (coll : List Doc) (active_only : Bool) (page page_size : Nat) :
    Paginated :=
  let query := programsQuery active_only
  let total := (coll.filter query).length
  let skip := (page - 1) * page_size
  let programs :=
    ((((mongoSort (coll.filter query) "createdAt" (-1))).drop skip).take page_size).map
      programView
  { items := programs, total := total, page := page, pageSize := page_size,
    totalPages := (total + page_size - 1) / page_size }

/-- Query built by `get_news` (`if category:` is a Python truthiness test,
so an empty-string category adds no filter). -/
def newsQuery (category : Option String) (featured_only : Bool) (d : Doc) : Bool :=
  (match category with
   | some c => if c = "" then true else decide (Doc.get d "category" = some (Val.str c))
   | Option.none => true)
  && (if featured_only then decide (Doc.get d "featured" = some (Val.bool true)) else true)

/-- `DatabaseOperations.get_news`: filter, sort by `date` descending, paginate. -/
def get_news (coll : List Doc) (category : Option String) (page page_size : Nat)
    (featured_only : Bool) : Paginated :=
  let query := newsQuery category featured_only
  let total := (coll.filter query).length
  let skip := (page - 1) * page_size
  let news_list :=
    ((((mongoSort (coll.filter query) "date" (-1))).drop skip).take page_size).map
      stringifyOid
  { items := news_list, total := total, page := page, pageSize := page_size,
    totalPages := (total + page_size - 1) / page_size }

/-- Query built by `get_partnerships` from the optional `type`/`country`
filters (Python truthiness, as above). -/
def partnershipsQuery (type country : Option String) (d : Doc) : Bool :=
  (match type with
   | some t => if t = "" then true else decide (Doc.get d "type" = some (Val.str t))
   | Option.none => true)
  && (match country with
   | some c => if c = "" then true else decide (Doc.get d "country" = some (Val.str c))
   | Option.none => true)

/-- `DatabaseOperations.get_partnerships`: filter, sort by `partnerName`
ascending, paginate. -/
def get_partnerships (coll : List Doc) (type country : Option String)
    (page page_size : Nat) : Paginated :=
  let query := partnershipsQuery type country
  let total := (coll.filter query).length
  let skip := (page - 1) * page_size
  let partnerships :=
    ((((mongoSort (coll.filter query) "partnerName" 1)).drop skip).take page_size).map
      stringifyOid
  { items := partnerships, total := total, page := page, pageSize := page_size,
    totalPages := (total + page_size - 1) / page_size }

/-- Query built by `get_events`; `upcoming_only` adds
`{'startDate': {'$gte': datetime.utcnow()}}`. -/
def eventsQuery (type : Option String) (upcoming_only : Bool) (now : Nat)
    (d : Doc) : Bool :=
  (match type with
   | some t => if t = "" then true else decide (Doc.get d "type" = some (Val.str t))
   | Option.none => true)
  && (if upcoming_only then
        match Doc.get d "startDate" with
        | some (Val.time t) => decide (now ≤ t)
        | _ => false
      else true)

/-- `DatabaseOperations.get_events`: filter, sort by `startDate` descending,
paginate. -/
def get_events (coll : List Doc) (type : Option String) (page page_size : Nat)
    (upcoming_only : Bool) (now : Nat) : Paginated :=
  let query := eventsQuery type upcoming_only now
  let total := (coll.filter query).length
  let skip := (page - 1) * page_size
  let events :=
    ((((mongoSort (coll.filter query) "startDate" (-1))).drop skip).take page_size).map
      stringifyOid
  { items := events, total := total, page := page, pageSize := page_size,
    totalPages := (total + page_size - 1) / page_size }

/-- Query built by `get_gallery_images` from the optional category. -/
def galleryQuery (category : Option String) (d : Doc) : Bool :=
  match category with
  | some c => if c = "" then true else decide (Doc.get d "category" = some (Val.str c))
  | Option.none => true

/-- `DatabaseOperations.get_gallery_images`: filter, sort by `uploadDate`
descending, paginate. -/
def get_gallery_images (coll : List Doc) (category : Option String)
    (page page_size : Nat) : Paginated :=
  let query := galleryQuery category
  let total := (coll.filter query).length
  let skip := (page - 1) * page_size
  let images :=
    ((((mongoSort (coll.filter query) "uploadDate" (-1))).drop skip).take page_size).map
      stringifyOid
  { items := images, total := total, page := page, pageSize := page_size,
    totalPages := (total + page_size - 1) / page_size }

/-- `find_one({'id': ...})` plus `_id` stringification, shared shape of all
`get_*_by_id` operations. -/
def get_program_by_id (coll : List Doc) (program_id : String) : Option Doc :=
  (coll.find? (idMatch program_id)).map stringifyOid

def get_news_by_id (coll : List Doc) (news_id : String) : Option Doc :=
  (coll.find? (idMatch news_id)).map stringifyOid

def get_event_by_id (coll : List Doc) (event_id : String) : Option Doc :=
  (coll.find? (idMatch event_id)).map stringifyOid

def get_team_member_by_id (coll : List Doc) (member_id : String) : Option Doc :=
  (coll.find? (idMatch member_id)).map stringifyOid

def get_gallery_image_by_id (coll : List Doc) (image_id : String) : Option Doc :=
  (coll.find? (idMatch image_id)).map stringifyOid

def get_partnership_by_id (coll : List Doc) (partnership_id : String) : Option Doc :=
  (coll.find? (idMatch partnership_id)).map stringifyOid

def get_faq_by_id (coll : List Doc) (faq_id : String) : Option Doc :=
  (coll.find? (idMatch faq_id)).map stringifyOid

/-- `get_static_content_by_key`: `find_one({'key': ...})` plus `_id`
stringification. -/
def get_static_content_by_key (coll : List Doc) (key : String) : Option Doc :=
  (coll.find? (keyMatch key)).map stringifyOid

/-- The two-line preamble shared by the update operations:
`update_data['updatedAt'] = datetime.utcnow()` followed by
`update_data = {k: v for k, v in update_data.items() if v is not None}`. -/
def stampFilter (update_data : Doc) (now : Nat) : Doc :=
  Doc.filterVals (Doc.set update_data "updatedAt" (Val.time now))
    (fun v => decide (v ≠ Val.none))

/-- `DatabaseOperations.update_program`: stamp `updatedAt`, drop `None`
fields, `$set` under the id query, and return the re-fetched record only
when the store reports a modification (`if result.modified_count:`). -/
def update_program (coll : List Doc) (program_id : String) (update_data : Doc)
    (now : Nat) : Option Doc × List Doc :=
  let update_data := stampFilter update_data now
  let r := mongoUpdateOne coll (idMatch program_id) update_data
  (if r.2 > 0 then get_program_by_id r.1 program_id else Option.none, r.1)

/-- `DatabaseOperations.update_news` (same shape as `update_program`). -/
def update_news (coll : List Doc) (news_id : String) (update_data : Doc)
    (now : Nat) : Option Doc × List Doc :=
  let update_data := stampFilter update_data now
  let r := mongoUpdateOne coll (idMatch news_id) update_data
  (if r.2 > 0 then get_news_by_id r.1 news_id else Option.none, r.1)

/-- `DatabaseOperations.update_event` (same shape as `update_program`). -/
def update_event (coll : List Doc) (event_id : String) (update_data : Doc)
    (now : Nat) : Option Doc × List Doc :=
  let update_data := stampFilter update_data now
  let r := mongoUpdateOne coll (idMatch event_id) update_data
  (if r.2 > 0 then get_event_by_id r.1 event_id else Option.none, r.1)

/-- `DatabaseOperations.update_team_member` (same shape as `update_program`). -/
def update_team_member (coll : List Doc) (member_id : String) (update_data : Doc)
    (now : Nat) : Option Doc × List Doc :=
  let update_data := stampFilter update_data now
  let r := mongoUpdateOne coll (idMatch member_id) update_data
  (if r.2 > 0 then get_team_member_by_id r.1 member_id else Option.none, r.1)

/-- `DatabaseOperations.update_partnership` (same shape as `update_program`). -/
def update_partnership (coll : List Doc) (partnership_id : String)
    (update_data : Doc) (now : Nat) : Option Doc × List Doc :=
  let update_data := stampFilter update_data now
  let r := mongoUpdateOne coll (idMatch partnership_id) update_data
  (if r.2 > 0 then get_partnership_by_id r.1 partnership_id else Option.none,
   r.1)

/-- `DatabaseOperations.update_faq` (same shape as `update_program`). -/
def update_faq (coll : List Doc) (faq_id : String) (update_data : Doc)
    (now : Nat) : Option Doc × List Doc :=
  let update_data := stampFilter update_data now
  let r := mongoUpdateOne coll (idMatch faq_id) update_data
  (if r.2 > 0 then get_faq_by_id r.1 faq_id else Option.none, r.1)

/-- `DatabaseOperations.update_static_content`: same shape as
`update_program`, but the record is addressed by its `key` field. -/
def update_static_content (coll : List Doc) (key : String) (update_data : Doc)
    (now : Nat) : Option Doc × List Doc :=
  let update_data := stampFilter update_data now
  let r := mongoUpdateOne coll (keyMatch key) update_data
  (if r.2 > 0 then get_static_content_by_key r.1 key else Option.none, r.1)

/-- `DatabaseOperations.update_gallery_image`: no `updatedAt` stamp, and
when nothing was modified it still re-fetches and returns the current
image instead of signalling "no update occurred". -/
def update_gallery_image (coll : List Doc) (image_id : String)
    (update_data : Doc) : Option Doc × List Doc :=
  let update_data := Doc.filterVals update_data (fun v => decide (v ≠ Val.none))
  let r := mongoUpdateOne coll (idMatch image_id) update_data
  (if r.2 > 0 then get_gallery_image_by_id r.1 image_id
   else get_gallery_image_by_id r.1 image_id, r.1)

/-- `DatabaseOperations.delete_program`: `delete_one({'id': ...})`,
returning `deleted_count > 0` and the new collection state. -/
def delete_program (coll : List Doc) (program_id : String) : Bool × List Doc :=
  let r := mongoDeleteOne coll (idMatch program_id)
  (decide (r.2 > 0), r.1)

def delete_news (coll : List Doc) (news_id : String) : Bool × List Doc :=
  let r := mongoDeleteOne coll (idMatch news_id)
  (decide (r.2 > 0), r.1)

def delete_partnership (coll : List Doc) (partnership_id : String) : Bool × List Doc :=
  let r := mongoDeleteOne coll (idMatch partnership_id)
  (decide (r.2 > 0), r.1)

def delete_team_member (coll : List Doc) (member_id : String) : Bool × List Doc :=
  let r := mongoDeleteOne coll (idMatch member_id)
  (decide (r.2 > 0), r.1)

def delete_event (coll : List Doc) (event_id : String) : Bool × List Doc :=
  let r := mongoDeleteOne coll (idMatch event_id)
  (decide (r.2 > 0), r.1)

def delete_gallery_image (coll : List Doc) (image_id : String) : Bool × List Doc :=
  let r := mongoDeleteOne coll (idMatch image_id)
  (decide (r.2 > 0), r.1)

def delete_faq (coll : List Doc) (faq_id : String) : Bool × List Doc :=
  let r := mongoDeleteOne coll (idMatch faq_id)
  (decide (r.2 > 0), r.1)

def delete_contact (coll : List Doc) (contact_id : String) : Bool × List Doc :=
  let r := mongoDeleteOne coll (idMatch contact_id)
  (decide (r.2 > 0), r.1)

/-- `delete_static_content` deletes by the `key` field rather than `id`. -/
def delete_static_content (coll : List Doc) (key : String) : Bool × List Doc :=
  let r := mongoDeleteOne coll (keyMatch key)
  (decide (r.2 > 0), r.1)

/-- Query built by `get_contacts` from the optional `form_type`
(Python truthiness, as elsewhere). -/
def contactsQuery (form_type : Option String) (d : Doc) : Bool :=
  match form_type with
  | some ft => if ft = "" then true else decide (Doc.get d "formType" = some (Val.str ft))
  | Option.none => true

/-- The per-contact loop body of `get_contacts`: stringify `_id`, default a
missing logical `id`, and normalize legacy `status` casings at read time
(`"read" → "Read"`, `"new" → "New"`, `"replied" → "Replied"`, missing →
`"New"`). -/
def contactView (d : Doc) : Doc :=
  let d := stringifyOid d
  let d := if (Doc.get d "id").isSome then d else Doc.set d "id" (Doc.getD d "_id")
  match Doc.get d "status" with
  | some v =>
      if v = Val.str "read" then Doc.set d "status" (Val.str "Read")
      else if v = Val.str "new" then Doc.set d "status" (Val.str "New")
      else if v = Val.str "replied" then Doc.set d "status" (Val.str "Replied")
      else d
  | Option.none => Doc.set d "status" (Val.str "New")

/-- `DatabaseOperations.get_contacts`: filter by form type, sort newest
first, cap at 1000, and apply the read-time view transform.  The second
component is the collection after the call: the operation performs no
store write, so it is returned unchanged. -/
def get_contacts (coll : List Doc) (form_type : Option String) :
    List Doc × List Doc :=
  (((mongoSort (coll.filter (contactsQuery form_type)) "createdAt" (-1)).take 1000).map
      contactView,
   coll)

-- ========================
-- Cross-collection search (database.py, global_search)
-- ========================

/-- One normalized search result entry
`{'type': ..., 'id': ..., 'title': ..., 'description': ..., 'url': ...}`. -/
structure SearchEntry where
  type : String
  id : Val
  title : Val
  description : String
  url : String
  deriving DecidableEq, Repr

/-- Python `s.lower()` (structurally, so concrete instances compute). -/
def pyLower (s : String) : String :=
  ⟨s.data.map Char.toLower⟩

/-- Contiguous-sublist test on character lists. -/
def charsContain (needle : List Char) : List Char → Bool
  | [] => needle.isEmpty
  | c :: rest => needle.isPrefixOf (c :: rest) || charsContain needle rest

/-- Case-insensitive substring match, modelling
`{'$regex': query, '$options': 'i'}` for plain (metacharacter-free) queries. -/
def ciContains (hay q : String) : Bool :=
  charsContain (pyLower q).data (pyLower hay).data

/-- Case-insensitive match against one string field of a document. -/
def fieldMatches (d : Doc) (k : String) (q : String) : Bool :=
  match Doc.get d k with
  | some (Val.str s) => ciContains s q
  | _ => false

/-- The `$or` filter for the programs section: title, description,
partnerUniversity. -/
def programSearchMatch (q : String) (d : Doc) : Bool :=
  fieldMatches d "title" q || fieldMatches d "description" q ||
    fieldMatches d "partnerUniversity" q

/-- The `$or` filter for the news section: title, content. -/
def newsSearchMatch (q : String) (d : Doc) : Bool :=
  fieldMatches d "title" q || fieldMatches d "content" q

/-- The `$or` filter for the events section: title, description. -/
def eventSearchMatch (q : String) (d : Doc) : Bool :=
  fieldMatches d "title" q || fieldMatches d "description" q

/-- The `$or` filter for the partnerships section: partnerName, details,
country. -/
def partnershipSearchMatch (q : String) (d : Doc) : Bool :=
  fieldMatches d "partnerName" q || fieldMatches d "details" q ||
    fieldMatches d "country" q

/-- String content of a field (Python would raise on a non-string where a
slice is taken; the claims never exercise that path). -/
def getStr (d : Doc) (k : String) : String :=
  match Doc.get d k with
  | some (Val.str s) => s
  | _ => ""

/-- Result entry built for a matched program
(`prog.get('id', str(prog['_id']))`, description truncated to 200). -/
def mkProgramEntry (d : Doc) : SearchEntry :=
  let pid := (Doc.get d "id").getD (Val.str (pyStr (Doc.getD d "_id")))
  { type := "program", id := pid, title := Doc.getD d "title",
    description := pySlice (getStr d "description") 200,
    url := "/student-mobility/programs/" ++ pyStr pid }

/-- Result entry built for a matched news item. -/
def mkNewsEntry (d : Doc) : SearchEntry :=
  { type := "news", id := Doc.getD d "id", title := Doc.getD d "title",
    description := pySlice (getStr d "content") 200,
    url := "/news-media/" ++ pyStr (Doc.getD d "id") }

/-- Result entry built for a matched event. -/
def mkEventEntry (d : Doc) : SearchEntry :=
  { type := "event", id := Doc.getD d "id", title := Doc.getD d "title",
    description := pySlice (getStr d "description") 200,
    url := "/visits-delegations-events/" ++ pyStr (Doc.getD d "id") }

/-- Result entry built for a matched partnership. -/
def mkPartnershipEntry (d : Doc) : SearchEntry :=
  { type := "partnership", id := Doc.getD d "id",
    title := Doc.getD d "partnerName",
    description := pySlice (getStr d "details") 200,
    url := "/global-partnerships/" ++ pyStr (Doc.getD d "id") }

/-- `if not sections or 'x' in sections:` — Python truthiness, so an empty
section list also enables every section. -/
def sectionOn (sections : Option (List String)) (name : String) : Bool :=
  match sections with
  | Option.none => true
  | some l => l.isEmpty || l.contains name

/-- Programs leg of the fan-out: `.find($or ...).limit(5)` then normalize. -/
def searchPrograms (programs : List Doc) (q : String) : List SearchEntry :=
  ((programs.filter (programSearchMatch q)).take 5).map mkProgramEntry

def searchNews (news : List Doc) (q : String) : List SearchEntry :=
  ((news.filter (newsSearchMatch q)).take 5).map mkNewsEntry

def searchEvents (events : List Doc) (q : String) : List SearchEntry :=
  ((events.filter (eventSearchMatch q)).take 5).map mkEventEntry

def searchPartnerships (partnerships : List Doc) (q : String) : List SearchEntry :=
  ((partnerships.filter (partnershipSearchMatch q)).take 5).map mkPartnershipEntry

/-- The search output `{'results': results, 'total': len(results)}`. -/
structure SearchOut where
  results : List SearchEntry
  total : Nat
  deriving DecidableEq, Repr

/-- `DatabaseOperations.global_search`: sequential fan-out over programs,
news, events, partnerships (in that order), each section gated by the
optional section list and capped at 5 before concatenation. -/
def global_search (programs news events partnerships : List Doc)
    (q : String) (sections : Option (List String)) : SearchOut :=
  let results :=
    (if sectionOn sections "programs" then searchPrograms programs q else [])
    ++ (if sectionOn sections "news" then searchNews news q else [])
    ++ (if sectionOn sections "events" then searchEvents events q else [])
    ++ (if sectionOn sections "partnerships" then searchPartnerships partnerships q
        else [])
  { results := results, total := results.length }

-- ========================
-- Admin mutation gate (routes.py)
-- ========================

/-- Modelled from the spec: the JWT boundary (the `jwt` library is external
to this repository; the spec specifies it at the boundary as "accepts
credentials, returns/validates an opaque bearer token", failing closed).
A bearer token is abstracted as its embedded claims (`sub`, `exp`) plus
whether its signature verifies against the server secret; `jwt.decode`
raises `InvalidTokenError` on a signature/format problem and
`ExpiredSignatureError` when the embedded expiry is in the past. -/
structure BearerToken where
  sub : Option String
  exp : Nat
  wellSigned : Bool
  deriving DecidableEq, Repr

inductive DecodeOutcome where
  | ok (payload : BearerToken)
  | expiredSignatureError
  | invalidTokenError
  deriving DecidableEq, Repr

/-- Modelled from the spec: `jwt.decode(token, SECRET_KEY, algorithms=[ALGORITHM])`. -/
def jwtDecode (tok : BearerToken) (now : Nat) : DecodeOutcome :=
  if !tok.wellSigned then .invalidTokenError
  else if tok.exp < now then .expiredSignatureError
  else .ok tok

inductive AuthOutcome where
  | authorized (username : String)
  | unauthorized401
  deriving DecidableEq, Repr

/-- `verify_token`: decode the bearer token, read `sub`, map any decode
failure or missing subject to HTTP 401.  The active-sessions set is not
consulted. -/
def verify_token (tok : BearerToken) (now : Nat) : AuthOutcome :=
  match jwtDecode tok now with
  | .ok payload =>
      match payload.sub with
      | some username => .authorized username
      | Option.none => .unauthorized401
  | .expiredSignatureError => .unauthorized401
  | .invalidTokenError => .unauthorized401

/-- `admin_logout`: `active_admin_sessions.discard(current_username)`. -/
def admin_logout (active_admin_sessions : List String)
    (current_username : String) : List String :=
  active_admin_sessions.erase current_username

/-- The admin mutation gate as every admin route consumes it
(`current_username: str = Depends(verify_token)`): the process state
carries the sessions set, but the verification outcome is computed from
the token alone. -/
def adminGate (active_admin_sessions : List String) (tok : BearerToken)
    (now : Nat) : AuthOutcome :=
  let _unused := active_admin_sessions
  verify_token tok now

-- ========================
-- Admin route handlers (routes.py)
-- ========================

/-- `update_program_admin`: default partial-update policy at the route —
`{k: v for k, v in program.dict().items() if v is not None}` — then the
repository update.  (The handler maps a `none` result to HTTP 404; the
returned pair is the result and the post-call collection.) -/
def update_program_admin (coll : List Doc) (program_id : String)
    (payload : Doc) (now : Nat) : Option Doc × List Doc :=
  let update_data := Doc.filterVals payload (fun v => decide (v ≠ Val.none))
  update_program coll program_id update_data now

/-- `isinstance(v, str)`. -/
def isStrVal : Val → Bool
  | .str _ => true
  | _ => false

/-- `v.strip()` for string values. -/
def valStrip : Val → String
  | .str s => pyStrip s
  | _ => ""

/-- The refined field filter of `update_news_admin` / `update_event_admin`:
`v is not None and (isinstance(v, str) and v.strip() != '' or not
isinstance(v, str))`. -/
def keepField (v : Val) : Bool :=
  decide (v ≠ Val.none) &&
    ((isStrVal v && decide (valStrip v ≠ "")) || !isStrVal v)

/-- `update_news_admin`: refined partial-update policy (drop `None` and
empty/whitespace-only strings), then the repository update. -/
def update_news_admin (coll : List Doc) (news_id : String) (payload : Doc)
    (now : Nat) : Option Doc × List Doc :=
  let update_data := Doc.filterVals payload keepField
  update_news coll news_id update_data now

/-- `update_event_admin`: refined partial-update policy (identical to the
news handler), then the repository update. -/
def update_event_admin (coll : List Doc) (event_id : String) (payload : Doc)
    (now : Nat) : Option Doc × List Doc :=
  let update_data := Doc.filterVals payload keepField
  update_event coll event_id update_data now

-- ========================
-- File uploads (routes.py)
-- ========================

/-- An uploaded file as FastAPI presents it: a filename and the declared
content type. -/
structure Upload where
  filename : String
  content_type : String
  deriving DecidableEq, Repr

/-- The allowed upload types, as listed by the gallery-upload,
gallery-update and team-create handlers. -/
def allowed_types : List String :=
  ["image/jpeg", "image/png", "image/gif", "image/webp"]

/-- Content-type gate of `upload_gallery_image_admin`:
`if file.content_type not in allowed_types: raise 400`. -/
def galleryUploadAccepts (content_type : String) : Bool :=
  allowed_types.contains content_type

/-- Content-type gate of `create_team_member_admin` (same `allowed_types`
membership test). -/
def createTeamMemberAccepts (content_type : String) : Bool :=
  allowed_types.contains content_type

/-- Content-type gate of `update_gallery_image_admin` (same `allowed_types`
membership test). -/
def updateGalleryImageAccepts (content_type : String) : Bool :=
  allowed_types.contains content_type

/-- Content-type gate of `update_team_member_admin`:
`if not file.content_type.startswith('image/'): raise 400`. -/
def updateTeamMemberAccepts (content_type : String) : Bool :=
  pyStartswith content_type "image/"

/-- `save_upload_file`: write the stream to `uploads/<path>` (the
destination directories are `Path("uploads/gallery")` and
`Path("uploads/team")`) and return `str(file_path.relative_to("uploads"))`,
i.e. `<path>` without the `uploads/` prefix; the generated uuid filename
is a parameter of the model.  The file system is modelled as the list of
stored paths relative to the process working directory, so the on-disk
path carries the `uploads/` prefix while the returned reference does not. -/
def save_upload_file (files : List String) (path : String) :
    List String × String :=
  (("uploads/" ++ path) :: files, path)

/-- `create_gallery_image`: assign a fresh `id` and `uploadDate`, insert,
and surface the store id as a string field (the generated uuid and object
id are parameters of the model). -/
def create_gallery_image (coll : List Doc) (image_data : Doc) (now : Nat)
    (uuid oidStr : String) : Doc × List Doc :=
  let image_data := Doc.set image_data "id" (Val.str uuid)
  let image_data := Doc.set image_data "uploadDate" (Val.time now)
  let image_data := Doc.set image_data "_id" (Val.str oidStr)
  (image_data, coll ++ [image_data])

/-- `create_team_member`: assign a fresh `id`, `createdAt` and `updatedAt`,
insert, and surface the store id as a string field. -/
def create_team_member (coll : List Doc) (team_data : Doc) (now : Nat)
    (uuid oidStr : String) : Doc × List Doc :=
  let team_data := Doc.set team_data "id" (Val.str uuid)
  let team_data := Doc.set team_data "createdAt" (Val.time now)
  let team_data := Doc.set team_data "updatedAt" (Val.time now)
  let team_data := Doc.set team_data "_id" (Val.str oidStr)
  (team_data, coll ++ [team_data])

/-- `upload_gallery_image_admin`: reject a disallowed content type before
any file is written; otherwise save the upload and insert the gallery
record built from the form fields. -/
def upload_gallery_image_admin (coll : List Doc) (files : List String)
    (file : Upload) (title description category : String) (order : Int)
    (is_featured is_active : Bool) (freshName : String) (now : Nat)
    (uuid oidStr : String) : Except String Doc × List Doc × List String :=
  if !(allowed_types.contains file.content_type) then
    (.error "Invalid file type. Only JPEG, PNG, GIF, and WebP are allowed.",
     coll, files)
  else
    let sv := save_upload_file files ("gallery/" ++ freshName)
    let image_data : Doc :=
      [("title", Val.str title), ("description", Val.str description),
       ("image", Val.str ("/" ++ sv.2)), ("alt", Val.str title),
       ("category", Val.str category), ("order", Val.int order),
       ("is_featured", Val.bool is_featured), ("is_active", Val.bool is_active),
       ("uploadDate", Val.time now)]
    let r := create_gallery_image coll image_data now uuid oidStr
    (.ok r.1, r.2, sv.1)

/-- The `member_data` dict built by `create_team_member_admin`
(`"image": f"/{image_path}" if image_path else None`). -/
def teamMemberData (name role bio email phone department : String)
    (image_path : Option String) (order : Int) (is_leadership is_active : Bool)
    (now : Nat) : Doc :=
  [("name", Val.str name), ("role", Val.str role), ("bio", Val.str bio),
   ("email", Val.str email), ("phone", Val.str phone),
   ("department", Val.str department),
   ("image", match image_path with
             | some p => Val.str ("/" ++ p)
             | Option.none => Val.none),
   ("order", Val.int order), ("is_leadership", Val.bool is_leadership),
   ("is_active", Val.bool is_active), ("uploadDate", Val.time now)]

/-- `create_team_member_admin`: reject a disallowed content type before any
file is written; otherwise save the upload (or fall back to a truthy
`image_url`) and insert the member record. -/
def create_team_member_admin (coll : List Doc) (files : List String)
    (file : Option Upload) (name role bio email phone department : String)
    (image_url : Option String) (order : Int) (is_leadership is_active : Bool)
    (freshName : String) (now : Nat) (uuid oidStr : String) :
    Except String Doc × List Doc × List String :=
  match file with
  | some f =>
    if !(allowed_types.contains f.content_type) then
      (.error "Invalid file type. Only JPEG, PNG, GIF, and WebP are allowed.",
       coll, files)
    else
      let sv := save_upload_file files ("team/" ++ freshName)
      let r := create_team_member coll
        (teamMemberData name role bio email phone department (some sv.2) order
          is_leadership is_active now) now uuid oidStr
      (.ok r.1, r.2, sv.1)
  | Option.none =>
    let image_path : Option String :=
      match image_url with
      | some u => if u ≠ "" then some u else Option.none
      | Option.none => Option.none
    let r := create_team_member coll
      (teamMemberData name role bio email phone department image_path order
        is_leadership is_active now) now uuid oidStr
    (.ok r.1, r.2, files)

/-- The image-removal side effect of `update_team_member_admin`: look up the
member, and when it holds a truthy `image` reference, strip the leading
slash and delete that file from disk if it exists
(`if os.path.exists: os.remove`). -/
def deleteStoredTeamImage (coll : List Doc) (member_id : String)
    (files : List String) : List String :=
  match get_team_member_by_id coll member_id with
  | some current_member =>
      let img := Doc.getD current_member "image"
      if Val.truthy img then
        let old := pyStr img
        let old := if pyStartswith old "/" then pyDrop old 1 else old
        if files.contains old then files.erase old else files
      else files
  | Option.none => files

/-- `if x is not None: update_data['x'] = x`. -/
def setIfSome (d : Doc) (k : String) (v : Option Val) : Doc :=
  match v with
  | some x => Doc.set d k x
  | Option.none => d

/-- `if x is not None and x.strip() != '': update_data['x'] = x`
(used for `email`, `phone`, `department`). -/
def setIfSomeNonEmpty (d : Doc) (k : String) (v : Option String) : Doc :=
  match v with
  | some s => if pyStrip s ≠ "" then Doc.set d k (Val.str s) else d
  | Option.none => d

/-- The nine `if x is not None: update_data['x'] = x` assignments of
`update_team_member_admin` (with the `.strip()` guard on `email`, `phone`
and `department`). -/
def teamFieldAssignments (update_data : Doc)
    (name role bio email phone department : Option String)
    (order : Option Int) (is_leadership is_active : Option Bool) : Doc :=
  let update_data := setIfSome update_data "name" (name.map Val.str)
  let update_data := setIfSome update_data "role" (role.map Val.str)
  let update_data := setIfSome update_data "bio" (bio.map Val.str)
  let update_data := setIfSomeNonEmpty update_data "email" email
  let update_data := setIfSomeNonEmpty update_data "phone" phone
  let update_data := setIfSomeNonEmpty update_data "department" department
  let update_data := setIfSome update_data "order" (order.map Val.int)
  let update_data := setIfSome update_data "is_leadership" (is_leadership.map Val.bool)
  let update_data := setIfSome update_data "is_active" (is_active.map Val.bool)
  update_data

/-- Continuation of `update_team_member_admin` after the image branch: the
raw-form-data re-check of `image_url` (which repeats the removal when the
raw value is exactly the empty string), the remaining per-field
assignments, and the repository update. -/
def finishTeamUpdate (coll : List Doc) (files : List String)
    (member_id : String) (update_data0 : Doc)
    (name role bio email phone department : Option String)
    (image_url : Option String) (order : Option Int)
    (is_leadership is_active : Option Bool) (now : Nat) :
    Except String (Option Doc) × List Doc × List String :=
  let recheck : Doc × List String :=
    match image_url with
    | some s =>
        if s = "" then
          (Doc.set update_data0 "image" (Val.str ""),
           deleteStoredTeamImage coll member_id files)
        else (update_data0, files)
    | Option.none => (update_data0, files)
  let update_data := teamFieldAssignments recheck.1 name role bio email phone
    department order is_leadership is_active
  let r := update_team_member coll member_id update_data now
  (.ok r.1, r.2, recheck.2)

/-- `update_team_member_admin`: 404 for a missing member; then the image
branch — an uploaded file (gated only by the `image/` prefix), a non-blank
`image_url`, or the explicit-clear path for a blank `image_url` (delete the
stored file, persist `image` as the empty string) — followed by
`finishTeamUpdate`. -/
def update_team_member_admin (coll : List Doc) (files : List String)
    (member_id : String) (file : Option Upload)
    (name role bio email phone department : Option String)
    (image_url : Option String) (order : Option Int)
    (is_leadership is_active : Option Bool) (freshName : String) (now : Nat) :
    Except String (Option Doc) × List Doc × List String :=
  match get_team_member_by_id coll member_id with
  | Option.none => (.error "Team member not found", coll, files)
  | some _ =>
    match file with
    | some f =>
      if !(pyStartswith f.content_type "image/") then
        (.error "Invalid file type. Only JPEG, PNG, GIF, and WebP are allowed.",
         coll, files)
      else
        let sv := save_upload_file files ("team/" ++ freshName)
        finishTeamUpdate coll sv.1 member_id [("image", Val.str ("/" ++ sv.2))]
          name role bio email phone department image_url order is_leadership
          is_active now
    | Option.none =>
      match image_url with
      | some s =>
        if pyStrip s ≠ "" then
          finishTeamUpdate coll files member_id [("image", Val.str ("/" ++ s))]
            name role bio email phone department image_url order is_leadership
            is_active now
        else
          let files1 := deleteStoredTeamImage coll member_id files
          finishTeamUpdate coll files1 member_id [("image", Val.str "")]
            name role bio email phone department image_url order is_leadership
            is_active now
      | Option.none =>
        finishTeamUpdate coll files member_id []
          name role bio email phone department image_url order is_leadership
          is_active now

-- ========================
-- Theorems
-- ========================

/-- `(total + page_size - 1) / page_size` (the program's `totalPages`
formula) is exactly the rational ceiling of `total / page_size`. -/
theorem totalPages_formula_eq_ceil (t p : Nat) (hp : 1 ≤ p) :
    (((t + p - 1) / p : Nat) : ℤ) = ⌈(t : ℚ) / (p : ℚ)⌉ := by
  have hp' : (0 : ℚ) < (p : ℚ) := by exact_mod_cast hp
  obtain ⟨n, hn⟩ : ∃ n, (t + p - 1) / p = n := ⟨_, rfl⟩
  have h := Nat.div_add_mod (t + p - 1) p
  rw [hn] at h
  have hm : (t + p - 1) % p < p := Nat.mod_lt _ (by omega)
  have h1 : t ≤ p * n := by omega
  have h2 : p * n < t + p := by omega
  have c1 : (t : ℚ) ≤ (p : ℚ) * (n : ℚ) := by exact_mod_cast h1
  have c2 : (p : ℚ) * (n : ℚ) < (t : ℚ) + (p : ℚ) := by exact_mod_cast h2
  rw [hn, eq_comm, Int.ceil_eq_iff]
  constructor
  · rw [lt_div_iff₀ hp']
    push_cast
    nlinarith [c2]
  · rw [div_le_iff₀ hp']
    push_cast
    nlinarith [c1]

/-- The pagination contract claimed for every list operation: `total` is
the count of documents matching the active filter before pagination,
`totalPages` is the rational ceiling of `total / pageSize`, and `items` is
the `[(page-1)*pageSize : page*pageSize]` slice of the filtered, sorted
documents (then passed through the read-time view transform `post`), so
its length is `min(pageSize, max(0, total - (page-1)*pageSize))`. -/
def PaginationEnvelopeOk (r : Paginated) (matching : List Doc)
    (post : Doc → Doc) (key : String) (dir : Int) : Prop :=
  r.total = matching.length
  ∧ (r.totalPages : ℤ) = ⌈(r.total : ℚ) / (r.pageSize : ℚ)⌉
  ∧ (r.items.length : ℤ) =
      min (r.pageSize : ℤ) (max 0 ((r.total : ℤ) - ((r.page : ℤ) - 1) * r.pageSize))
  ∧ r.items =
      (((mongoSort matching key dir).drop ((r.page - 1) * r.pageSize)).take
        r.pageSize).map post

/-- All five paginated list operations share one shape; this is its spec. -/
theorem paginate_shape_ok (matching : List Doc) (page page_size : Nat)
    (post : Doc → Doc) (key : String) (dir : Int)
    (hpage : 1 ≤ page) (hsize : 1 ≤ page_size) :
    PaginationEnvelopeOk
      { items := (((mongoSort matching key dir).drop ((page - 1) * page_size)).take
          page_size).map post,
        total := matching.length, page := page, pageSize := page_size,
        totalPages := (matching.length + page_size - 1) / page_size }
      matching post key dir := by
  refine ⟨rfl, totalPages_formula_eq_ceil _ _ hsize, ?_, rfl⟩
  have hlen : ((((mongoSort matching key dir).drop ((page - 1) * page_size)).take
      page_size).map post).length
      = min page_size (matching.length - (page - 1) * page_size) := by
    rw [List.length_map, List.length_take, List.length_drop, length_mongoSort]
  simp only [hlen]
  have hc : (((page : ℤ) - 1) * page_size) = (((page - 1) * page_size : Nat) : ℤ) := by
    have : ((page - 1 : Nat) : ℤ) = (page : ℤ) - 1 := by omega
    push_cast [this]
    ring
  rw [hc]
  omega

/-- C1: for every paginated list operation (programs, news, partnerships,
events, gallery) and all `page ≥ 1`, `pageSize ≥ 1`, the returned envelope
has `totalPages = ceil(total / pageSize)` with `total` the pre-pagination
count of documents matching the active filter, and `items` is the
`documents[(page-1)*pageSize : page*pageSize]` slice after filter and sort
(through the read-time `_id` view transform), of length
`min(pageSize, max(0, total - (page-1)*pageSize))`. -/
theorem C1_pagination_envelope (coll : List Doc) (page page_size now : Nat)
    (active_only featured_only upcoming_only : Bool)
    (category type country gcategory : Option String)
    (hpage : 1 ≤ page) (hsize : 1 ≤ page_size) :
    PaginationEnvelopeOk (get_programs coll active_only page page_size)
      (coll.filter (programsQuery active_only)) programView "createdAt" (-1)
    ∧ PaginationEnvelopeOk (get_news coll category page page_size featured_only)
      (coll.filter (newsQuery category featured_only)) stringifyOid "date" (-1)
    ∧ PaginationEnvelopeOk (get_partnerships coll type country page page_size)
      (coll.filter (partnershipsQuery type country)) stringifyOid "partnerName" 1
    ∧ PaginationEnvelopeOk (get_events coll type page page_size upcoming_only now)
      (coll.filter (eventsQuery type upcoming_only now)) stringifyOid "startDate" (-1)
    ∧ PaginationEnvelopeOk (get_gallery_images coll gcategory page page_size)
      (coll.filter (galleryQuery gcategory)) stringifyOid "uploadDate" (-1) :=
  ⟨paginate_shape_ok _ page page_size _ _ _ hpage hsize,
   paginate_shape_ok _ page page_size _ _ _ hpage hsize,
   paginate_shape_ok _ page page_size _ _ _ hpage hsize,
   paginate_shape_ok _ page page_size _ _ _ hpage hsize,
   paginate_shape_ok _ page page_size _ _ _ hpage hsize⟩

/-- Witness for C1 at a concrete store: three programs (two active), page 2
of size 1. -/
theorem C1_pagination_envelope_witness :
    PaginationEnvelopeOk
      (get_programs
        [[("id", Val.str "a"), ("status", Val.str "Active"), ("createdAt", Val.time 5)],
         [("id", Val.str "b"), ("status", Val.str "Inactive"), ("createdAt", Val.time 3)],
         [("id", Val.str "c"), ("status", Val.str "Active"), ("createdAt", Val.time 9)]]
        true 2 1)
      (List.filter (programsQuery true)
        [[("id", Val.str "a"), ("status", Val.str "Active"), ("createdAt", Val.time 5)],
         [("id", Val.str "b"), ("status", Val.str "Inactive"), ("createdAt", Val.time 3)],
         [("id", Val.str "c"), ("status", Val.str "Active"), ("createdAt", Val.time 9)]])
      programView "createdAt" (-1) :=
  (C1_pagination_envelope _ 2 1 0 true false false Option.none Option.none
    Option.none Option.none (by decide) (by decide)).1

/-- The stored value of field `f` in the record with logical id `pid`
(observer used to state frame/effect properties of updates). -/
def storedField (coll : List Doc) (pid f : String) : Option Val :=
  (coll.find? (idMatch pid)).bind (fun d => Doc.get d f)

theorem stampFilter_countKey_zero (upd : Doc) (now : Nat) (f : String)
    (hfu : f ≠ "updatedAt") (h : Doc.countKey upd f = 0) :
    Doc.countKey (stampFilter upd now) f = 0 := by
  have h1 : Doc.countKey (Doc.set upd "updatedAt" (Val.time now)) f = 0 := by
    rw [Doc.countKey_set_ne _ _ _ _ (fun e => hfu e.symm)]
    exact h
  exact Nat.le_zero.mp (h1 ▸ Doc.countKey_filterVals_le _ _ f)

theorem stampFilter_countKey_le (upd : Doc) (now : Nat) (f : String)
    (hfu : f ≠ "updatedAt") :
    Doc.countKey (stampFilter upd now) f ≤ Doc.countKey upd f := by
  have h1 := Doc.countKey_filterVals_le
    (Doc.set upd "updatedAt" (Val.time now)) (fun v => decide (v ≠ Val.none)) f
  rwa [Doc.countKey_set_ne _ _ _ _ (fun e => hfu e.symm)] at h1

theorem stampFilter_get_pos (upd : Doc) (now : Nat) (f : String) (v : Val)
    (hfu : f ≠ "updatedAt") (hget : Doc.get upd f = some v)
    (hv : v ≠ Val.none) :
    Doc.get (stampFilter upd now) f = some v := by
  apply Doc.get_filterVals_of_pos
  · rw [Doc.get_set_ne _ _ _ _ (fun e => hfu e.symm)]
    exact hget
  · simpa using hv

theorem stampFilter_updatedAt (upd : Doc) (now : Nat)
    (hcu : Doc.countKey upd "updatedAt" ≤ 1) :
    Doc.get (stampFilter upd now) "updatedAt" = some (Val.time now)
    ∧ Doc.countKey (stampFilter upd now) "updatedAt" ≤ 1 := by
  constructor
  · apply Doc.get_filterVals_of_pos
    · exact Doc.get_set_self upd "updatedAt" (Val.time now)
    · simp
  · calc Doc.countKey (stampFilter upd now) "updatedAt"
        ≤ Doc.countKey (Doc.set upd "updatedAt" (Val.time now)) "updatedAt" :=
          Doc.countKey_filterVals_le _ _ _
      _ = 1 := Doc.countKey_set_self _ _ _ hcu

theorem idMatch_applySet (fields : Doc) (i : String)
    (h : Doc.countKey fields "id" = 0) (d : Doc) :
    idMatch i (applySet d fields) = idMatch i d := by
  unfold idMatch
  rw [applySet_get_of_countKey_zero _ _ _ h]

/-- After `update_one({'id': i}, {'$set': fields})` with an id-free field
set, `find_one({'id': i})` sees exactly the `$set`-image of what it saw
before. -/
theorem mongoUpdateOne_find_id (coll : List Doc) (i : String) (fields : Doc)
    (h : Doc.countKey fields "id" = 0) :
    (mongoUpdateOne coll (idMatch i) fields).1.find? (idMatch i)
      = (coll.find? (idMatch i)).map (fun d => applySet d fields) :=
  mongoUpdateOne_find _ _ _ (idMatch_applySet fields i h)

/-- Generic frame property of the route-filter + repository-update
pipeline: a payload field whose value the route filter rejects never
reaches the store, so the stored value is unchanged. -/
theorem updateRoute_frame (coll : List Doc) (pid : String) (payload : Doc)
    (p : Val → Bool) (now : Nat) (f : String) (v0 : Val)
    (hid : Doc.get payload "id" = Option.none)
    (hcf : Doc.countKey payload f ≤ 1) (hfu : f ≠ "updatedAt")
    (hget : Doc.get payload f = some v0) (hp : p v0 = false) :
    storedField (mongoUpdateOne coll (idMatch pid)
        (stampFilter (Doc.filterVals payload p) now)).1 pid f
      = storedField coll pid f := by
  have hidz : Doc.countKey payload "id" = 0 :=
    Doc.countKey_eq_zero_of_get_eq_none _ _ hid
  have hidz1 : Doc.countKey (Doc.filterVals payload p) "id" = 0 :=
    Nat.le_zero.mp (hidz ▸ Doc.countKey_filterVals_le _ _ _)
  have hidz2 : Doc.countKey (stampFilter (Doc.filterVals payload p) now) "id" = 0 :=
    stampFilter_countKey_zero _ _ _ (by decide) hidz1
  have hfz1 : Doc.countKey (Doc.filterVals payload p) f = 0 :=
    Doc.countKey_filterVals_eq_zero _ _ _ _ hget hp hcf
  have hfz2 : Doc.countKey (stampFilter (Doc.filterVals payload p) now) f = 0 :=
    stampFilter_countKey_zero _ _ _ hfu hfz1
  unfold storedField
  rw [mongoUpdateOne_find_id _ _ _ hidz2]
  cases hfind : coll.find? (idMatch pid) with
  | none => simp
  | some d =>
    simp [applySet_get_of_countKey_zero _ _ _ hfz2]

/-- Generic effect property of the route-filter + repository-update
pipeline: a payload field whose value the route filter keeps overwrites
the stored field, and `updatedAt` is refreshed to the call time. -/
theorem updateRoute_sets (coll : List Doc) (pid : String) (payload : Doc)
    (p : Val → Bool) (now : Nat) (f : String) (v : Val) (d : Doc)
    (hid : Doc.get payload "id" = Option.none)
    (hcf : Doc.countKey payload f ≤ 1)
    (hcu : Doc.countKey payload "updatedAt" ≤ 1) (hfu : f ≠ "updatedAt")
    (hget : Doc.get payload f = some v) (hp : p v = true)
    (hv : v ≠ Val.none)
    (hfind : coll.find? (idMatch pid) = some d) :
    storedField (mongoUpdateOne coll (idMatch pid)
        (stampFilter (Doc.filterVals payload p) now)).1 pid f = some v
    ∧ storedField (mongoUpdateOne coll (idMatch pid)
        (stampFilter (Doc.filterVals payload p) now)).1 pid "updatedAt"
      = some (Val.time now) := by
  have hidz : Doc.countKey payload "id" = 0 :=
    Doc.countKey_eq_zero_of_get_eq_none _ _ hid
  have hidz1 : Doc.countKey (Doc.filterVals payload p) "id" = 0 :=
    Nat.le_zero.mp (hidz ▸ Doc.countKey_filterVals_le _ _ _)
  have hidz2 : Doc.countKey (stampFilter (Doc.filterVals payload p) now) "id" = 0 :=
    stampFilter_countKey_zero _ _ _ (by decide) hidz1
  have hget1 : Doc.get (Doc.filterVals payload p) f = some v :=
    Doc.get_filterVals_of_pos _ _ _ _ hget hp
  have hcf1 : Doc.countKey (Doc.filterVals payload p) f ≤ 1 :=
    le_trans (Doc.countKey_filterVals_le _ _ _) hcf
  have hget2 : Doc.get (stampFilter (Doc.filterVals payload p) now) f = some v :=
    stampFilter_get_pos _ _ _ _ hfu hget1 hv
  have hcf2 : Doc.countKey (stampFilter (Doc.filterVals payload p) now) f ≤ 1 :=
    le_trans (stampFilter_countKey_le _ _ _ hfu) hcf1
  have hcu1 : Doc.countKey (Doc.filterVals payload p) "updatedAt" ≤ 1 :=
    le_trans (Doc.countKey_filterVals_le _ _ _) hcu
  obtain ⟨hu2, hcu2⟩ := stampFilter_updatedAt (Doc.filterVals payload p) now hcu1
  constructor
  · unfold storedField
    rw [mongoUpdateOne_find_id _ _ _ hidz2, hfind]
    simp [applySet_get_of_unique _ _ _ _ hget2 hcf2]
  · unfold storedField
    rw [mongoUpdateOne_find_id _ _ _ hidz2, hfind]
    simp [applySet_get_of_unique _ _ _ _ hu2 hcu2]

theorem keyMatch_applySet (fields : Doc) (i : String)
    (h : Doc.countKey fields "key" = 0) (d : Doc) :
    keyMatch i (applySet d fields) = keyMatch i d := by
  unfold keyMatch
  rw [applySet_get_of_countKey_zero _ _ _ h]

/-- The return policy shared by every non-gallery update operation
(`if result.modified_count: return fetch(...)` / `return None`): the
re-fetched record is returned exactly when the store reports a modified
field, and an existing record left unchanged by the `$set` yields the
"no update occurred" signal. -/
theorem updateShape_return_policy (coll : List Doc) (q : Doc → Bool)
    (fields : Doc) (hq : ∀ d, q (applySet d fields) = q d) :
    ((if (mongoUpdateOne coll q fields).2 > 0
        then ((mongoUpdateOne coll q fields).1.find? q).map stringifyOid
        else Option.none).isSome
      ↔ (mongoUpdateOne coll q fields).2 = 1)
    ∧ (∀ d, coll.find? q = some d → applySet d fields = d →
        (if (mongoUpdateOne coll q fields).2 > 0
          then ((mongoUpdateOne coll q fields).1.find? q).map stringifyOid
          else Option.none) = Option.none) := by
  constructor
  · constructor
    · intro hsome
      by_cases hpos : (mongoUpdateOne coll q fields).2 > 0
      · cases hfind : coll.find? q with
        | none =>
          rw [mongoUpdateOne_of_find_none _ _ _ hfind] at hpos
          omega
        | some d =>
          have hmod := mongoUpdateOne_modified coll q fields d hfind
          rw [hmod] at hpos ⊢
          by_cases he : applySet d fields = d
          · simp [he] at hpos
          · simp [he]
      · simp [hpos] at hsome
    · intro hone
      rw [if_pos (by omega), mongoUpdateOne_find coll q fields hq]
      cases hfind : coll.find? q with
      | none =>
        rw [mongoUpdateOne_of_find_none _ _ _ hfind] at hone
        simp at hone
      | some d => simp
  · intro d hfind heq
    have hmod := mongoUpdateOne_modified coll q fields d hfind
    rw [hmod]
    simp [heq]

/-- C2: every resource's update operation other than the gallery-image one
(programs, news, events, team members, partnerships, FAQs, and static
content, the last addressed by `key`) returns the post-update record
exactly when the store reports at least one modified field
(`modified_count = 1`), and returns the "no update occurred" signal `none`
when, for an existing record, applying the policy-filtered payload (which
always carries the fresh `updatedAt` stamp) changes no stored field
value; `update_gallery_image` instead re-fetches and returns the current
record for an existing id even when the store reports zero modified
fields. -/
theorem C2_update_return_policy
    (collP collN collE collT collPa collF collS gcoll : List Doc)
    (pid nid eid mid paid fid skey iid : String) (upd gupd : Doc) (now : Nat)
    (hid : Doc.get upd "id" = Option.none)
    (hkey : Doc.get upd "key" = Option.none)
    (hgid : Doc.get gupd "id" = Option.none) :
    (((update_program collP pid upd now).1.isSome ↔
        (mongoUpdateOne collP (idMatch pid) (stampFilter upd now)).2 = 1)
      ∧ ∀ d, collP.find? (idMatch pid) = some d →
          applySet d (stampFilter upd now) = d →
          (update_program collP pid upd now).1 = Option.none)
    ∧ (((update_news collN nid upd now).1.isSome ↔
        (mongoUpdateOne collN (idMatch nid) (stampFilter upd now)).2 = 1)
      ∧ ∀ d, collN.find? (idMatch nid) = some d →
          applySet d (stampFilter upd now) = d →
          (update_news collN nid upd now).1 = Option.none)
    ∧ (((update_event collE eid upd now).1.isSome ↔
        (mongoUpdateOne collE (idMatch eid) (stampFilter upd now)).2 = 1)
      ∧ ∀ d, collE.find? (idMatch eid) = some d →
          applySet d (stampFilter upd now) = d →
          (update_event collE eid upd now).1 = Option.none)
    ∧ (((update_team_member collT mid upd now).1.isSome ↔
        (mongoUpdateOne collT (idMatch mid) (stampFilter upd now)).2 = 1)
      ∧ ∀ d, collT.find? (idMatch mid) = some d →
          applySet d (stampFilter upd now) = d →
          (update_team_member collT mid upd now).1 = Option.none)
    ∧ (((update_partnership collPa paid upd now).1.isSome ↔
        (mongoUpdateOne collPa (idMatch paid) (stampFilter upd now)).2 = 1)
      ∧ ∀ d, collPa.find? (idMatch paid) = some d →
          applySet d (stampFilter upd now) = d →
          (update_partnership collPa paid upd now).1 = Option.none)
    ∧ (((update_faq collF fid upd now).1.isSome ↔
        (mongoUpdateOne collF (idMatch fid) (stampFilter upd now)).2 = 1)
      ∧ ∀ d, collF.find? (idMatch fid) = some d →
          applySet d (stampFilter upd now) = d →
          (update_faq collF fid upd now).1 = Option.none)
    ∧ (((update_static_content collS skey upd now).1.isSome ↔
        (mongoUpdateOne collS (keyMatch skey) (stampFilter upd now)).2 = 1)
      ∧ ∀ d, collS.find? (keyMatch skey) = some d →
          applySet d (stampFilter upd now) = d →
          (update_static_content collS skey upd now).1 = Option.none)
    ∧ (∀ d, gcoll.find? (idMatch iid) = some d →
        (update_gallery_image gcoll iid gupd).1.isSome) := by
  have hidz : Doc.countKey (stampFilter upd now) "id" = 0 :=
    stampFilter_countKey_zero _ _ _ (by decide)
      (Doc.countKey_eq_zero_of_get_eq_none _ _ hid)
  have hkeyz : Doc.countKey (stampFilter upd now) "key" = 0 :=
    stampFilter_countKey_zero _ _ _ (by decide)
      (Doc.countKey_eq_zero_of_get_eq_none _ _ hkey)
  have hqid : ∀ (i : String) (d : Doc),
      idMatch i (applySet d (stampFilter upd now)) = idMatch i d :=
    fun i => idMatch_applySet _ i hidz
  have hqkey : ∀ d : Doc,
      keyMatch skey (applySet d (stampFilter upd now)) = keyMatch skey d :=
    keyMatch_applySet _ skey hkeyz
  refine ⟨updateShape_return_policy collP (idMatch pid) _ (hqid pid),
    updateShape_return_policy collN (idMatch nid) _ (hqid nid),
    updateShape_return_policy collE (idMatch eid) _ (hqid eid),
    updateShape_return_policy collT (idMatch mid) _ (hqid mid),
    updateShape_return_policy collPa (idMatch paid) _ (hqid paid),
    updateShape_return_policy collF (idMatch fid) _ (hqid fid),
    updateShape_return_policy collS (keyMatch skey) _ hqkey, ?_⟩
  intro d hfind
  have hgidz : Doc.countKey
      (Doc.filterVals gupd (fun v => decide (v ≠ Val.none))) "id" = 0 :=
    Nat.le_zero.mp
      ((Doc.countKey_eq_zero_of_get_eq_none _ _ hgid) ▸
        Doc.countKey_filterVals_le _ _ _)
  have hres2 : (update_gallery_image gcoll iid gupd).1 =
      get_gallery_image_by_id
        (mongoUpdateOne gcoll (idMatch iid)
          (Doc.filterVals gupd (fun v => decide (v ≠ Val.none)))).1 iid :=
    ite_self _
  rw [hres2]
  unfold get_gallery_image_by_id
  rw [mongoUpdateOne_find_id _ _ _ hgidz, hfind]
  simp

/-- Witness for C2: a no-op update (empty payload against a record whose
`updatedAt` already equals the stamp time) yields `none` for the program
and static-content operations, while the same no-op gallery update still
returns the record. -/
theorem C2_update_return_policy_witness :
    (update_program [[("id", Val.str "a"), ("updatedAt", Val.time 7)]] "a" [] 7).1
      = Option.none
    ∧ (update_static_content [[("key", Val.str "k"), ("updatedAt", Val.time 7)]]
        "k" [] 7).1 = Option.none
    ∧ (update_gallery_image [[("id", Val.str "g"), ("title", Val.str "x")]] "g"
        []).1.isSome := by
  have h := C2_update_return_policy
    [[("id", Val.str "a"), ("updatedAt", Val.time 7)]] [] [] [] [] []
    [[("key", Val.str "k"), ("updatedAt", Val.time 7)]]
    [[("id", Val.str "g"), ("title", Val.str "x")]]
    "a" "n" "e" "m" "pa" "f" "k" "g" [] [] 7 (by decide) (by decide) (by decide)
  exact ⟨h.1.2 [("id", Val.str "a"), ("updatedAt", Val.time 7)] (by decide)
      (by decide),
    h.2.2.2.2.2.2.1.2 [("key", Val.str "k"), ("updatedAt", Val.time 7)]
      (by decide) (by decide),
    h.2.2.2.2.2.2.2 [("id", Val.str "g"), ("title", Val.str "x")] (by decide)⟩

/-- C3: under the default partial-update policy (the admin program-update
route), a payload field carrying the absent-value sentinel `None` is
dropped before merging and its stored value is unchanged, while a field
present with a non-absent value overwrites the stored field and the update
refreshes `updatedAt` to the call time — a value `≥` the record's previous
`updatedAt` whenever the clock has not run backwards. -/
theorem C3_default_partial_update (coll : List Doc) (pid : String)
    (payload : Doc) (now : Nat) (f : String)
    (hid : Doc.get payload "id" = Option.none)
    (hcf : Doc.countKey payload f ≤ 1)
    (hcu : Doc.countKey payload "updatedAt" ≤ 1)
    (hfu : f ≠ "updatedAt") :
    (Doc.get payload f = some Val.none →
      storedField (update_program_admin coll pid payload now).2 pid f
        = storedField coll pid f)
    ∧ (∀ v d, Doc.get payload f = some v → v ≠ Val.none →
        coll.find? (idMatch pid) = some d →
        storedField (update_program_admin coll pid payload now).2 pid f = some v
        ∧ storedField (update_program_admin coll pid payload now).2 pid "updatedAt"
            = some (Val.time now)
        ∧ (∀ t0, Doc.get d "updatedAt" = some (Val.time t0) → t0 ≤ now →
            ∃ t1, storedField (update_program_admin coll pid payload now).2 pid
                "updatedAt" = some (Val.time t1) ∧ t0 ≤ t1)) := by
  have hstate : (update_program_admin coll pid payload now).2 =
      (mongoUpdateOne coll (idMatch pid)
        (stampFilter (Doc.filterVals payload (fun v => decide (v ≠ Val.none))) now)).1 :=
    rfl
  constructor
  · intro hget
    rw [hstate]
    exact updateRoute_frame coll pid payload _ now f Val.none hid hcf hfu hget
      (by decide)
  · intro v d hget hv hfind
    have h := updateRoute_sets coll pid payload
      (fun v => decide (v ≠ Val.none)) now f v d hid hcf hcu hfu hget
      (by simpa using hv) hv hfind
    rw [hstate]
    exact ⟨h.1, h.2, fun t0 _ ht0 => ⟨now, h.2, ht0⟩⟩

/-- Witness for C3: a program whose `title` is updated while `image` is
sent as `None` — `image` stays untouched, `title` is overwritten and
`updatedAt` advances. -/
theorem C3_default_partial_update_witness :
    (storedField
      (update_program_admin
        [[("id", Val.str "a"), ("image", Val.str "old.png"), ("updatedAt", Val.time 3)]]
        "a" [("image", Val.none)] 9).2 "a" "image"
      = storedField
        [[("id", Val.str "a"), ("image", Val.str "old.png"), ("updatedAt", Val.time 3)]]
        "a" "image")
    ∧ storedField
        (update_program_admin
          [[("id", Val.str "a"), ("image", Val.str "old.png"), ("updatedAt", Val.time 3)]]
          "a" [("title", Val.str "x")] 9).2 "a" "title" = some (Val.str "x") := by
  refine ⟨(C3_default_partial_update
      [[("id", Val.str "a"), ("image", Val.str "old.png"), ("updatedAt", Val.time 3)]]
      "a" [("image", Val.none)] 9 "image" (by decide) (by decide) (by decide)
      (by decide)).1 (by decide), ?_⟩
  exact ((C3_default_partial_update
      [[("id", Val.str "a"), ("image", Val.str "old.png"), ("updatedAt", Val.time 3)]]
      "a" [("title", Val.str "x")] 9 "title" (by decide) (by decide) (by decide)
      (by decide)).2 (Val.str "x")
      [("id", Val.str "a"), ("image", Val.str "old.png"), ("updatedAt", Val.time 3)]
      (by decide) (by decide) (by decide)).1

/-- C4: the refined partial-update policy of the news and events admin
routes drops payload fields that are `None` or an empty / whitespace-only
string (leaving the stored field unchanged), while present non-string
values — including falsy ones such as `false` and `0` — are still applied
and overwrite the stored field. -/
theorem C4_refined_update_policy (collN collE : List Doc) (nid eid : String)
    (payload : Doc) (now : Nat) (f : String)
    (hid : Doc.get payload "id" = Option.none)
    (hcf : Doc.countKey payload f ≤ 1)
    (hcu : Doc.countKey payload "updatedAt" ≤ 1)
    (hfu : f ≠ "updatedAt") :
    (∀ v0, Doc.get payload f = some v0 →
      (v0 = Val.none ∨ ∃ s, v0 = Val.str s ∧ pyStrip s = "") →
      storedField (update_news_admin collN nid payload now).2 nid f
        = storedField collN nid f)
    ∧ (∀ v d, Doc.get payload f = some v → isStrVal v = false → v ≠ Val.none →
        collN.find? (idMatch nid) = some d →
        storedField (update_news_admin collN nid payload now).2 nid f = some v)
    ∧ (∀ v0, Doc.get payload f = some v0 →
      (v0 = Val.none ∨ ∃ s, v0 = Val.str s ∧ pyStrip s = "") →
      storedField (update_event_admin collE eid payload now).2 eid f
        = storedField collE eid f)
    ∧ (∀ v d, Doc.get payload f = some v → isStrVal v = false → v ≠ Val.none →
        collE.find? (idMatch eid) = some d →
        storedField (update_event_admin collE eid payload now).2 eid f = some v) := by
  have hstateN : (update_news_admin collN nid payload now).2 =
      (mongoUpdateOne collN (idMatch nid)
        (stampFilter (Doc.filterVals payload keepField) now)).1 := rfl
  have hstateE : (update_event_admin collE eid payload now).2 =
      (mongoUpdateOne collE (idMatch eid)
        (stampFilter (Doc.filterVals payload keepField) now)).1 := rfl
  have hdrop : ∀ v0, (v0 = Val.none ∨ ∃ s, v0 = Val.str s ∧ pyStrip s = "") →
      keepField v0 = false := by
    rintro v0 (rfl | ⟨s, rfl, hs⟩)
    · rfl
    · simp [keepField, isStrVal, valStrip, hs]
  have hkeep : ∀ v : Val, isStrVal v = false → v ≠ Val.none →
      keepField v = true := by
    intro v hstr hv
    simp [keepField, hstr, hv]
  refine ⟨?_, ?_, ?_, ?_⟩
  · intro v0 hget hcase
    rw [hstateN]
    exact updateRoute_frame collN nid payload keepField now f v0 hid hcf hfu
      hget (hdrop v0 hcase)
  · intro v d hget hstr hv hfind
    rw [hstateN]
    exact (updateRoute_sets collN nid payload keepField now f v d hid hcf hcu
      hfu hget (hkeep v hstr hv) hv hfind).1
  · intro v0 hget hcase
    rw [hstateE]
    exact updateRoute_frame collE eid payload keepField now f v0 hid hcf hfu
      hget (hdrop v0 hcase)
  · intro v d hget hstr hv hfind
    rw [hstateE]
    exact (updateRoute_sets collE eid payload keepField now f v d hid hcf hcu
      hfu hget (hkeep v hstr hv) hv hfind).1

/-- Witness for C4: a news record whose `featured` flag is set to `false`
(applied even though falsy) while a whitespace-only `title` is dropped. -/
theorem C4_refined_update_policy_witness :
    storedField
      (update_news_admin
        [[("id", Val.str "n"), ("title", Val.str "T"), ("featured", Val.bool true)]]
        "n" [("featured", Val.bool false)] 5).2 "n" "featured"
      = some (Val.bool false)
    ∧ storedField
        (update_event_admin
          [[("id", Val.str "e"), ("title", Val.str "T")]]
          "e" [("title", Val.str "  ")] 5).2 "e" "title"
      = storedField [[("id", Val.str "e"), ("title", Val.str "T")]] "e" "title" := by
  constructor
  · exact (C4_refined_update_policy
      [[("id", Val.str "n"), ("title", Val.str "T"), ("featured", Val.bool true)]]
      [] "n" "e" [("featured", Val.bool false)] 5 "featured" (by decide)
      (by decide) (by decide) (by decide)).2.1 (Val.bool false)
      [("id", Val.str "n"), ("title", Val.str "T"), ("featured", Val.bool true)]
      (by decide) (by decide) (by decide) (by decide)
  · exact (C4_refined_update_policy []
      [[("id", Val.str "e"), ("title", Val.str "T")]] "n" "e"
      [("title", Val.str "  ")] 5 "title" (by decide) (by decide) (by decide)
      (by decide)).2.2.1 (Val.str "  ") (by decide)
      (Or.inr ⟨"  ", rfl, by decide⟩)

theorem setIfSome_get_ne (d : Doc) (k : String) (v : Option Val) (k' : String)
    (h : k ≠ k') : Doc.get (setIfSome d k v) k' = Doc.get d k' := by
  cases v with
  | none => rfl
  | some x => exact Doc.get_set_ne _ _ _ _ h

theorem setIfSome_countKey_ne (d : Doc) (k : String) (v : Option Val) (k' : String)
    (h : k ≠ k') : Doc.countKey (setIfSome d k v) k' = Doc.countKey d k' := by
  cases v with
  | none => rfl
  | some x => exact Doc.countKey_set_ne _ _ _ _ h

theorem setIfSomeNonEmpty_get_ne (d : Doc) (k : String) (v : Option String)
    (k' : String) (h : k ≠ k') :
    Doc.get (setIfSomeNonEmpty d k v) k' = Doc.get d k' := by
  cases v with
  | none => rfl
  | some s =>
    by_cases hs : pyStrip s ≠ "" <;>
      simp [setIfSomeNonEmpty, hs, Doc.get_set_ne _ _ _ _ h]

theorem setIfSomeNonEmpty_countKey_ne (d : Doc) (k : String) (v : Option String)
    (k' : String) (h : k ≠ k') :
    Doc.countKey (setIfSomeNonEmpty d k v) k' = Doc.countKey d k' := by
  cases v with
  | none => rfl
  | some s =>
    by_cases hs : pyStrip s ≠ "" <;>
      simp [setIfSomeNonEmpty, hs, Doc.countKey_set_ne _ _ _ _ h]

/-- The nine optional per-field assignments leave any other key's first
value and multiplicity untouched. -/
theorem teamFieldAssignments_frame (d0 : Doc)
    (name role bio email phone department : Option String)
    (order : Option Int) (is_leadership is_active : Option Bool) (k : String)
    (h1 : "name" ≠ k) (h2 : "role" ≠ k) (h3 : "bio" ≠ k) (h4 : "email" ≠ k)
    (h5 : "phone" ≠ k) (h6 : "department" ≠ k) (h7 : "order" ≠ k)
    (h8 : "is_leadership" ≠ k) (h9 : "is_active" ≠ k) :
    Doc.get (teamFieldAssignments d0 name role bio email phone department order
      is_leadership is_active) k = Doc.get d0 k
    ∧ Doc.countKey (teamFieldAssignments d0 name role bio email phone department
      order is_leadership is_active) k = Doc.countKey d0 k := by
  unfold teamFieldAssignments
  constructor
  · rw [setIfSome_get_ne _ _ _ _ h9, setIfSome_get_ne _ _ _ _ h8,
      setIfSome_get_ne _ _ _ _ h7, setIfSomeNonEmpty_get_ne _ _ _ _ h6,
      setIfSomeNonEmpty_get_ne _ _ _ _ h5, setIfSomeNonEmpty_get_ne _ _ _ _ h4,
      setIfSome_get_ne _ _ _ _ h3, setIfSome_get_ne _ _ _ _ h2,
      setIfSome_get_ne _ _ _ _ h1]
  · rw [setIfSome_countKey_ne _ _ _ _ h9, setIfSome_countKey_ne _ _ _ _ h8,
      setIfSome_countKey_ne _ _ _ _ h7, setIfSomeNonEmpty_countKey_ne _ _ _ _ h6,
      setIfSomeNonEmpty_countKey_ne _ _ _ _ h5,
      setIfSomeNonEmpty_countKey_ne _ _ _ _ h4, setIfSome_countKey_ne _ _ _ _ h3,
      setIfSome_countKey_ne _ _ _ _ h2, setIfSome_countKey_ne _ _ _ _ h1]

/-- `deleteStoredTeamImage` for a member whose stored image is a non-empty
string: it erases the slash-stripped path from disk if present. -/
theorem deleteStoredTeamImage_spec (coll : List Doc) (mid : String)
    (files : List String) (m : Doc) (p : String)
    (hfind : coll.find? (idMatch mid) = some m)
    (himg : Doc.get m "image" = some (Val.str p)) (hp : p ≠ "") :
    deleteStoredTeamImage coll mid files =
      (if files.contains (if pyStartswith p "/" then pyDrop p 1 else p)
       then files.erase (if pyStartswith p "/" then pyDrop p 1 else p) else files) := by
  have h1 : get_team_member_by_id coll mid = some (stringifyOid m) := by
    unfold get_team_member_by_id
    rw [hfind]
    rfl
  have himg2 : Doc.getD (stringifyOid m) "image" = Val.str p := by
    unfold stringifyOid Doc.getD
    rw [Doc.get_set_ne _ _ _ _ (by decide), himg]
    rfl
  unfold deleteStoredTeamImage
  rw [h1]
  simp only [himg2]
  simp [Val.truthy, hp, pyStr]

/-- After one conditional erase, a name is gone from a duplicate-free disk. -/
theorem not_mem_eraseStep (files : List String) (x : String)
    (hnd : files.Nodup) :
    x ∉ (if files.contains x then files.erase x else files) := by
  by_cases h : files.contains x
  · rw [if_pos h]
    exact hnd.not_mem_erase
  · rw [if_neg h]
    intro hmem
    exact h (by simpa using hmem)

/-- C5 counterexample input, refuting the claim's deletion side effect: a
member whose photo was saved by this backend's own upload path.
`save_upload_file` writes to `uploads/team/pic.jpg` (relative to the
working directory) and the record stores the reference `/team/pic.jpg`
(`f"/{path.relative_to('uploads')}"`); the clear branch strips the slash
and calls `os.path.exists`/`os.remove` on the working-directory-relative
`team/pic.jpg`, which is not where the file lives, so after the update the
upload is still on disk (though the `image` field is cleared). -/
theorem C5_team_image_clear_counterexample :
    (update_team_member_admin
      [[("id", Val.str "m1"), ("image", Val.str "/team/pic.jpg")]]
      ["uploads/team/pic.jpg"] "m1" Option.none Option.none Option.none
      Option.none Option.none Option.none Option.none (some "") Option.none
      Option.none Option.none "fresh" 42).2.2 = ["uploads/team/pic.jpg"]
    ∧ storedField (update_team_member_admin
      [[("id", Val.str "m1"), ("image", Val.str "/team/pic.jpg")]]
      ["uploads/team/pic.jpg"] "m1" Option.none Option.none Option.none
      Option.none Option.none Option.none Option.none (some "") Option.none
      Option.none Option.none "fresh" 42).2.1 "m1" "image"
      = some (Val.str "") := by
  constructor <;> rfl

/-- C5 (amended): a team-member update arriving with an `image_url` form
field equal to the empty string persists the record's `image` field as the
empty string (the empty string is not dropped by the update-policy
filtering) rather than leaving the stored image unchanged; the
out-of-band deletion targets the slash-stripped stored reference
interpreted relative to the process working directory — that path is
removed from disk when it exists there, and nothing is removed when it
does not (which is the case for every photo saved by this backend's own
upload path, stored under `uploads/` but referenced as `/team/<name>`). -/
theorem C5_team_image_explicit_clear (coll : List Doc) (files : List String)
    (mid : String) (m : Doc) (p : String)
    (name role bio email phone department : Option String)
    (order : Option Int) (is_leadership is_active : Option Bool)
    (freshName : String) (now : Nat)
    (hfind : coll.find? (idMatch mid) = some m)
    (himg : Doc.get m "image" = some (Val.str p)) (hp : p ≠ "")
    (hnd : files.Nodup) :
    storedField (update_team_member_admin coll files mid Option.none name role
      bio email phone department (some "") order is_leadership is_active
      freshName now).2.1 mid "image" = some (Val.str "")
    ∧ ((if pyStartswith p "/" then pyDrop p 1 else p) ∉ files →
        (update_team_member_admin coll files mid Option.none name role bio
          email phone department (some "") order is_leadership is_active
          freshName now).2.2 = files)
    ∧ (if pyStartswith p "/" then pyDrop p 1 else p) ∉
        (update_team_member_admin coll files mid Option.none name role bio
          email phone department (some "") order is_leadership is_active
          freshName now).2.2 := by
  have h1 : get_team_member_by_id coll mid = some (stringifyOid m) := by
    unfold get_team_member_by_id
    rw [hfind]
    rfl
  have hstep : update_team_member_admin coll files mid Option.none name role
      bio email phone department (some "") order is_leadership is_active
      freshName now
      = finishTeamUpdate coll (deleteStoredTeamImage coll mid files) mid
          [("image", Val.str "")] name role bio email phone department
          (some "") order is_leadership is_active now := by
    unfold update_team_member_admin
    rw [h1]
    rfl
  have hd0 : Doc.set [("image", Val.str "")] "image" (Val.str "")
      = [("image", Val.str "")] := by decide
  have hfin : ∀ fs : List String,
      finishTeamUpdate coll fs mid [("image", Val.str "")] name role bio email
        phone department (some "") order is_leadership is_active now
      = (Except.ok (update_team_member coll mid
            (teamFieldAssignments [("image", Val.str "")] name role bio email
              phone department order is_leadership is_active) now).1,
         (update_team_member coll mid
            (teamFieldAssignments [("image", Val.str "")] name role bio email
              phone department order is_leadership is_active) now).2,
         deleteStoredTeamImage coll mid fs) := by
    intro fs
    unfold finishTeamUpdate
    simp only [hd0]
    simp
  obtain ⟨hgi, hci⟩ := teamFieldAssignments_frame [("image", Val.str "")] name
    role bio email phone department order is_leadership is_active "image"
    (by decide) (by decide) (by decide) (by decide) (by decide) (by decide)
    (by decide) (by decide) (by decide)
  obtain ⟨hgid, hcid⟩ := teamFieldAssignments_frame [("image", Val.str "")] name
    role bio email phone department order is_leadership is_active "id"
    (by decide) (by decide) (by decide) (by decide) (by decide) (by decide)
    (by decide) (by decide) (by decide)
  have hUDimg : Doc.get (teamFieldAssignments [("image", Val.str "")] name role
      bio email phone department order is_leadership is_active) "image"
      = some (Val.str "") := by rw [hgi]; rfl
  have hUDimgc : Doc.countKey (teamFieldAssignments [("image", Val.str "")] name
      role bio email phone department order is_leadership is_active) "image"
      = 1 := by rw [hci]; rfl
  have hUDid : Doc.countKey (teamFieldAssignments [("image", Val.str "")] name
      role bio email phone department order is_leadership is_active) "id"
      = 0 := by rw [hcid]; rfl
  have hidz : Doc.countKey (stampFilter (teamFieldAssignments
      [("image", Val.str "")] name role bio email phone department order
      is_leadership is_active) now) "id" = 0 :=
    stampFilter_countKey_zero _ _ _ (by decide) hUDid
  have hg : Doc.get (stampFilter (teamFieldAssignments [("image", Val.str "")]
      name role bio email phone department order is_leadership is_active) now)
      "image" = some (Val.str "") :=
    stampFilter_get_pos _ _ _ _ (by decide) hUDimg (by decide)
  have hc : Doc.countKey (stampFilter (teamFieldAssignments
      [("image", Val.str "")] name role bio email phone department order
      is_leadership is_active) now) "image" ≤ 1 :=
    le_trans (stampFilter_countKey_le _ _ _ (by decide)) (le_of_eq hUDimgc)
  have hdel1 := deleteStoredTeamImage_spec coll mid files m p hfind himg hp
  refine ⟨?_, ?_, ?_⟩
  · rw [hstep, hfin]
    show storedField (mongoUpdateOne coll (idMatch mid) _).1 mid "image"
        = some (Val.str "")
    unfold storedField
    rw [mongoUpdateOne_find_id _ _ _ hidz, hfind]
    simp [applySet_get_of_unique _ _ _ _ hg hc]
  · intro habsent
    rw [hstep, hfin]
    show deleteStoredTeamImage coll mid (deleteStoredTeamImage coll mid files)
        = files
    have hc1 : files.contains (if pyStartswith p "/" then pyDrop p 1 else p)
        = false := by
      cases hcc : files.contains (if pyStartswith p "/" then pyDrop p 1 else p)
      · rfl
      · exact absurd (by simpa using hcc) habsent
    have hfiles1 : deleteStoredTeamImage coll mid files = files := by
      rw [hdel1, hc1]
      rfl
    rw [hfiles1]
    rw [deleteStoredTeamImage_spec coll mid files m p hfind himg hp, hc1]
    rfl
  · rw [hstep, hfin]
    show (if pyStartswith p "/" then pyDrop p 1 else p) ∉
      deleteStoredTeamImage coll mid (deleteStoredTeamImage coll mid files)
    have hnot1 : (if pyStartswith p "/" then pyDrop p 1 else p) ∉
        deleteStoredTeamImage coll mid files := by
      rw [hdel1]
      exact not_mem_eraseStep files _ hnd
    have hdel2 := deleteStoredTeamImage_spec coll mid
      (deleteStoredTeamImage coll mid files) m p hfind himg hp
    rw [hdel2, if_neg (fun hh => hnot1 (by simpa using hh))]
    exact hnot1

/-- Witness for C5: clearing a backend-uploaded photo (reference
`/team/pic.jpg`, file at `uploads/team/pic.jpg`) empties the field and
leaves the disk untouched; clearing a legacy `/uploads/team/old.jpg`
reference (whose slash-stripped path does exist relative to the working
directory) deletes that file. -/
theorem C5_team_image_explicit_clear_witness :
    storedField (update_team_member_admin
      [[("id", Val.str "m1"), ("image", Val.str "/team/pic.jpg")]]
      ["uploads/team/pic.jpg"] "m1" Option.none Option.none Option.none
      Option.none Option.none Option.none Option.none (some "") Option.none
      Option.none Option.none "fresh" 42).2.1 "m1" "image"
      = some (Val.str "")
    ∧ (update_team_member_admin
      [[("id", Val.str "m1"), ("image", Val.str "/team/pic.jpg")]]
      ["uploads/team/pic.jpg"] "m1" Option.none Option.none Option.none
      Option.none Option.none Option.none Option.none (some "") Option.none
      Option.none Option.none "fresh" 42).2.2 = ["uploads/team/pic.jpg"]
    ∧ "uploads/team/old.jpg" ∉ (update_team_member_admin
      [[("id", Val.str "m2"), ("image", Val.str "/uploads/team/old.jpg")]]
      ["uploads/team/old.jpg"] "m2" Option.none Option.none Option.none
      Option.none Option.none Option.none Option.none (some "") Option.none
      Option.none Option.none "fresh" 42).2.2 := by
  have h1 := C5_team_image_explicit_clear
    [[("id", Val.str "m1"), ("image", Val.str "/team/pic.jpg")]]
    ["uploads/team/pic.jpg"] "m1"
    [("id", Val.str "m1"), ("image", Val.str "/team/pic.jpg")] "/team/pic.jpg"
    Option.none Option.none Option.none Option.none Option.none Option.none
    Option.none Option.none Option.none "fresh" 42 (by decide) (by decide)
    (by decide) (by decide)
  have h2 := C5_team_image_explicit_clear
    [[("id", Val.str "m2"), ("image", Val.str "/uploads/team/old.jpg")]]
    ["uploads/team/old.jpg"] "m2"
    [("id", Val.str "m2"), ("image", Val.str "/uploads/team/old.jpg")]
    "/uploads/team/old.jpg" Option.none Option.none Option.none Option.none
    Option.none Option.none Option.none Option.none Option.none "fresh" 42
    (by decide) (by decide) (by decide) (by decide)
  have hred : (if pyStartswith "/uploads/team/old.jpg" "/"
      then pyDrop "/uploads/team/old.jpg" 1 else "/uploads/team/old.jpg")
      = "uploads/team/old.jpg" := by decide
  exact ⟨h1.1, h1.2.1 (by decide), hred ▸ h2.2.2⟩

theorem length_take5_map (l : List Doc) (f : Doc → SearchEntry) :
    ((l.take 5).map f).length ≤ 5 := by
  rw [List.length_map, List.length_take]
  exact Nat.min_le_left _ _

theorem mem_take5_map (l : List Doc) (f : Doc → SearchEntry) (e : SearchEntry)
    (he : e ∈ (l.take 5).map f) : ∃ d, e = f d := by
  obtain ⟨d, _, rfl⟩ := List.mem_map.mp he
  exact ⟨d, rfl⟩

theorem mem_section_gate (c : Bool) (l : List SearchEntry) (e : SearchEntry)
    (he : e ∈ (if c then l else [])) : e ∈ l := by
  by_cases hc : c
  · simpa [hc] using he
  · simp [hc] at he

/-- C6: for every query and section selection, each resource type
contributes at most 5 entries (capped before merging), the output is the
concatenation — in the fixed order programs, news, events, partnerships —
of per-section entry lists whose `type` tags identify the section, every
entry's description is truncated to at most 200 characters, and `total`
equals the length of the result list; in particular a query matching no
document yields `{results := [], total := 0}`. -/
theorem C6_global_search_shape (programs news events partnerships : List Doc)
    (q : String) (sections : Option (List String)) (_hq : 2 ≤ q.length) :
    (global_search programs news events partnerships q sections).total
      = (global_search programs news events partnerships q sections).results.length
    ∧ (∃ rP rN rE rPa : List SearchEntry,
        (global_search programs news events partnerships q sections).results
          = rP ++ rN ++ rE ++ rPa
        ∧ rP.length ≤ 5 ∧ rN.length ≤ 5 ∧ rE.length ≤ 5 ∧ rPa.length ≤ 5
        ∧ (∀ e ∈ rP, e.type = "program") ∧ (∀ e ∈ rN, e.type = "news")
        ∧ (∀ e ∈ rE, e.type = "event") ∧ (∀ e ∈ rPa, e.type = "partnership"))
    ∧ (∀ e ∈ (global_search programs news events partnerships q sections).results,
        e.description.length ≤ 200)
    ∧ ((∀ d ∈ programs, programSearchMatch q d = false) →
       (∀ d ∈ news, newsSearchMatch q d = false) →
       (∀ d ∈ events, eventSearchMatch q d = false) →
       (∀ d ∈ partnerships, partnershipSearchMatch q d = false) →
       global_search programs news events partnerships q sections
         = { results := [], total := 0 }) := by
  refine ⟨rfl, ?_, ?_, ?_⟩
  · refine ⟨if sectionOn sections "programs" then searchPrograms programs q else [],
      if sectionOn sections "news" then searchNews news q else [],
      if sectionOn sections "events" then searchEvents events q else [],
      if sectionOn sections "partnerships" then searchPartnerships partnerships q
        else [], rfl, ?_, ?_, ?_, ?_, ?_, ?_, ?_, ?_⟩
    · by_cases hc : sectionOn sections "programs" <;>
        simp [hc, searchPrograms, length_take5_map]
    · by_cases hc : sectionOn sections "news" <;>
        simp [hc, searchNews, length_take5_map]
    · by_cases hc : sectionOn sections "events" <;>
        simp [hc, searchEvents, length_take5_map]
    · by_cases hc : sectionOn sections "partnerships" <;>
        simp [hc, searchPartnerships, length_take5_map]
    · intro e he
      obtain ⟨d, rfl⟩ := mem_take5_map _ _ _ (mem_section_gate _ _ _ he)
      rfl
    · intro e he
      obtain ⟨d, rfl⟩ := mem_take5_map _ _ _ (mem_section_gate _ _ _ he)
      rfl
    · intro e he
      obtain ⟨d, rfl⟩ := mem_take5_map _ _ _ (mem_section_gate _ _ _ he)
      rfl
    · intro e he
      obtain ⟨d, rfl⟩ := mem_take5_map _ _ _ (mem_section_gate _ _ _ he)
      rfl
  · intro e he
    have he' : e ∈
        (if sectionOn sections "programs" then searchPrograms programs q else [])
        ++ (if sectionOn sections "news" then searchNews news q else [])
        ++ (if sectionOn sections "events" then searchEvents events q else [])
        ++ (if sectionOn sections "partnerships" then
              searchPartnerships partnerships q else []) := he
    rcases List.mem_append.mp he' with h3 | h4
    · rcases List.mem_append.mp h3 with h2 | h3'
      · rcases List.mem_append.mp h2 with h1 | h2'
        · obtain ⟨d, rfl⟩ := mem_take5_map _ _ _ (mem_section_gate _ _ _ h1)
          exact length_pySlice _ _
        · obtain ⟨d, rfl⟩ := mem_take5_map _ _ _ (mem_section_gate _ _ _ h2')
          exact length_pySlice _ _
      · obtain ⟨d, rfl⟩ := mem_take5_map _ _ _ (mem_section_gate _ _ _ h3')
        exact length_pySlice _ _
    · obtain ⟨d, rfl⟩ := mem_take5_map _ _ _ (mem_section_gate _ _ _ h4)
      exact length_pySlice _ _
  · intro h1 h2 h3 h4
    have e1 : programs.filter (programSearchMatch q) = [] :=
      List.filter_eq_nil_iff.mpr (by simpa using h1)
    have e2 : news.filter (newsSearchMatch q) = [] :=
      List.filter_eq_nil_iff.mpr (by simpa using h2)
    have e3 : events.filter (eventSearchMatch q) = [] :=
      List.filter_eq_nil_iff.mpr (by simpa using h3)
    have e4 : partnerships.filter (partnershipSearchMatch q) = [] :=
      List.filter_eq_nil_iff.mpr (by simpa using h4)
    unfold global_search
    simp [searchPrograms, searchNews, searchEvents, searchPartnerships,
      e1, e2, e3, e4]

/-- Witness for C6: the seeded Zurich program matches "zurich" and is the
sole result; a gibberish query returns the empty envelope. -/
theorem C6_global_search_shape_witness :
    (global_search
      [[("id", Val.str "p3"), ("title", Val.str "Computer Science - ETH Zurich"),
        ("description", Val.str "World-class CS program")]]
      [] [] [] "xyzzynomatch" Option.none)
      = { results := [], total := 0 }
    ∧ (global_search
      [[("id", Val.str "p3"), ("title", Val.str "Computer Science - ETH Zurich"),
        ("description", Val.str "World-class CS program")]]
      [] [] [] "zurich" Option.none).total
      = (global_search
      [[("id", Val.str "p3"), ("title", Val.str "Computer Science - ETH Zurich"),
        ("description", Val.str "World-class CS program")]]
      [] [] [] "zurich" Option.none).results.length := by
  constructor
  · exact (C6_global_search_shape
      [[("id", Val.str "p3"), ("title", Val.str "Computer Science - ETH Zurich"),
        ("description", Val.str "World-class CS program")]]
      [] [] [] "xyzzynomatch" Option.none (by decide)).2.2.2
      (by decide) (by decide) (by decide) (by decide)
  · exact (C6_global_search_shape
      [[("id", Val.str "p3"), ("title", Val.str "Computer Science - ETH Zurich"),
        ("description", Val.str "World-class CS program")]]
      [] [] [] "zurich" Option.none (by decide)).1

/-- The read-time status normalization of one contact record, as a function
of the stored status value. -/
theorem contactView_status_lookup (c₀ : Doc) :
    Doc.get (contactView c₀) "status" =
      (match Doc.get c₀ "status" with
       | some v =>
           if v = Val.str "read" then some (Val.str "Read")
           else if v = Val.str "new" then some (Val.str "New")
           else if v = Val.str "replied" then some (Val.str "Replied")
           else some v
       | Option.none => some (Val.str "New")) := by
  have hd1 : Doc.get (stringifyOid c₀) "status" = Doc.get c₀ "status" := by
    unfold stringifyOid
    exact Doc.get_set_ne _ _ _ _ (by decide)
  have hd2 : Doc.get
      (if (Doc.get (stringifyOid c₀) "id").isSome then stringifyOid c₀
       else Doc.set (stringifyOid c₀) "id" (Doc.getD (stringifyOid c₀) "_id"))
      "status" = Doc.get c₀ "status" := by
    by_cases hid : (Doc.get (stringifyOid c₀) "id").isSome
    · rw [if_pos hid, hd1]
    · rw [if_neg hid, Doc.get_set_ne _ _ _ _ (by decide), hd1]
  unfold contactView
  simp only [hd2]
  cases hst : Doc.get c₀ "status" with
  | none => simp [hd2, hst]
  | some v =>
    by_cases h1 : v = Val.str "read"
    · simp [hd2, hst, h1]
    · by_cases h2 : v = Val.str "new"
      · simp [hd2, hst, h1, h2]
      · by_cases h3 : v = Val.str "replied"
        · simp [hd2, hst, h1, h2, h3]
        · simp [hd2, hst, h1, h2, h3]

/-- C7: on every read of the contact resource, a stored legacy lowercase
status (`"read"`, `"new"`, `"replied"`) is rewritten to its canonical
capitalized form in the returned record, and a record missing `status` is
returned with `"New"`; the transform is read-time only — the stored
collection is returned unchanged. -/
theorem C7_contact_status_normalization (coll : List Doc) (ft : Option String) :
    (get_contacts coll ft).2 = coll
    ∧ ∀ (i : Nat) (c₀ : Doc),
        ((mongoSort (coll.filter (contactsQuery ft)) "createdAt" (-1)).take
          1000)[i]? = some c₀ →
        ∃ c, (get_contacts coll ft).1[i]? = some c
          ∧ (Doc.get c₀ "status" = some (Val.str "read") →
              Doc.get c "status" = some (Val.str "Read"))
          ∧ (Doc.get c₀ "status" = some (Val.str "new") →
              Doc.get c "status" = some (Val.str "New"))
          ∧ (Doc.get c₀ "status" = some (Val.str "replied") →
              Doc.get c "status" = some (Val.str "Replied"))
          ∧ (Doc.get c₀ "status" = Option.none →
              Doc.get c "status" = some (Val.str "New")) := by
  refine ⟨rfl, ?_⟩
  intro i c₀ hidx
  refine ⟨contactView c₀, ?_, ?_, ?_, ?_, ?_⟩
  · show (((mongoSort (coll.filter (contactsQuery ft)) "createdAt" (-1)).take
        1000).map contactView)[i]? = some (contactView c₀)
    rw [List.getElem?_map, hidx]
    rfl
  · intro h
    rw [contactView_status_lookup, h]
    rfl
  · intro h
    rw [contactView_status_lookup, h]
    rfl
  · intro h
    rw [contactView_status_lookup, h]
    rfl
  · intro h
    rw [contactView_status_lookup, h]

/-- Witness for C7: a legacy `"read"` contact and one with no status field. -/
theorem C7_contact_status_normalization_witness :
    (get_contacts [[("id", Val.str "c1"), ("status", Val.str "read")]]
      Option.none).2 = [[("id", Val.str "c1"), ("status", Val.str "read")]]
    ∧ ∃ c, (get_contacts [[("id", Val.str "c1"), ("status", Val.str "read")]]
        Option.none).1[0]? = some c
      ∧ Doc.get c "status" = some (Val.str "Read") := by
  have h := C7_contact_status_normalization
    [[("id", Val.str "c1"), ("status", Val.str "read")]] Option.none
  refine ⟨h.1, ?_⟩
  obtain ⟨c, hc, hread, -, -, -⟩ := h.2 0
    [("id", Val.str "c1"), ("status", Val.str "read")] (by decide)
  exact ⟨c, hc, hread (by decide)⟩

/-- C8: the admin mutation gate rejects every token whose embedded expiry
is in the past regardless of signature validity, accepts every
well-signed, unexpired token carrying a subject, and its outcome never
depends on the active-sessions set — in particular a valid token whose
subject was removed from the set by `admin_logout` is still accepted. -/
theorem C8_token_verification_session_independent (tok : BearerToken)
    (now : Nat) (S S' : List String) (u : String) :
    (tok.exp < now → adminGate S tok now = .unauthorized401)
    ∧ (tok.wellSigned = true → ¬ tok.exp < now → tok.sub = some u →
        adminGate S tok now = .authorized u)
    ∧ adminGate S tok now = adminGate S' tok now
    ∧ (tok.wellSigned = true → ¬ tok.exp < now → tok.sub = some u →
        adminGate (admin_logout S u) tok now = .authorized u) := by
  refine ⟨?_, ?_, rfl, ?_⟩
  · intro hexp
    unfold adminGate verify_token jwtDecode
    cases hw : tok.wellSigned <;> simp [hw, hexp]
  · intro hw hexp hsub
    unfold adminGate verify_token jwtDecode
    simp [hw, hexp, hsub]
  · intro hw hexp hsub
    unfold adminGate verify_token jwtDecode
    simp [hw, hexp, hsub]

/-- Witness for C8: an expired but well-signed token is rejected; the same
claims with a future expiry are accepted even after the subject's logout. -/
theorem C8_token_verification_session_independent_witness :
    adminGate ["admin"] ⟨some "admin", 3, true⟩ 10 = .unauthorized401
    ∧ adminGate (admin_logout ["admin"] "admin") ⟨some "admin", 99, true⟩ 10
        = .authorized "admin" := by
  have h := C8_token_verification_session_independent ⟨some "admin", 3, true⟩
    10 ["admin"] [] "admin"
  have h2 := C8_token_verification_session_independent ⟨some "admin", 99, true⟩
    10 ["admin"] [] "admin"
  exact ⟨h.1 (by decide), h2.2.2.2 (by decide) (by decide) (by decide)⟩

/-- C9 (divergence witness): the claim that every upload path accepts
exactly `{image/jpeg, image/png, image/gif, image/webp}` holds for the
gallery-upload, gallery-update and team-create gates, but the team-member
update handler checks only the `image/` prefix: `image/bmp` lies outside
the allowed set, is rejected by the other paths before any write, yet is
accepted by `update_team_member_admin`, which saves the file to disk. -/
theorem C9_team_update_accepts_disallowed_type :
    updateTeamMemberAccepts "image/bmp" = true
    ∧ "image/bmp" ∉ allowed_types
    ∧ galleryUploadAccepts "image/bmp" = false
    ∧ createTeamMemberAccepts "image/bmp" = false
    ∧ updateGalleryImageAccepts "image/bmp" = false
    ∧ upload_gallery_image_admin [] [] ⟨"x.bmp", "image/bmp"⟩ "t" "" "c" 0
        false true "fresh" 1 "u" "o"
      = (.error "Invalid file type. Only JPEG, PNG, GIF, and WebP are allowed.",
         [], [])
    ∧ create_team_member_admin [] [] (some ⟨"x.bmp", "image/bmp"⟩) "n" "r" "b"
        "" "" "" Option.none 0 false true "fresh" 1 "u" "o"
      = (.error "Invalid file type. Only JPEG, PNG, GIF, and WebP are allowed.",
         [], [])
    ∧ (update_team_member_admin [[("id", Val.str "m1"), ("name", Val.str "B")]]
        [] "m1" (some ⟨"x.bmp", "image/bmp"⟩) Option.none Option.none
        Option.none Option.none Option.none Option.none Option.none Option.none
        Option.none Option.none "fresh" 1).2.2 = ["uploads/team/fresh"] := by
  refine ⟨by decide, by decide, by decide, by decide, by decide, rfl, rfl, ?_⟩
  have h1 : get_team_member_by_id
      [[("id", Val.str "m1"), ("name", Val.str "B")]] "m1"
      = some (stringifyOid [("id", Val.str "m1"), ("name", Val.str "B")]) := by
    decide
  unfold update_team_member_admin
  rw [h1]
  rfl

theorem deleteOne_idempotent (coll : List Doc) (q : Doc → Bool) :
    (coll.find? q = Option.none → mongoDeleteOne coll q = (coll, 0))
    ∧ (∀ d, coll.find? q = some d → (coll.filter q).length ≤ 1 →
        (mongoDeleteOne coll q).2 = 1
        ∧ (mongoDeleteOne coll q).1.find? q = Option.none) := by
  refine ⟨mongoDeleteOne_of_find_none coll q, ?_⟩
  intro d hfind huniq
  have hdel := mongoDeleteOne_deleted coll q d hfind
  refine ⟨hdel, ?_⟩
  have hflt := mongoDeleteOne_filter_length coll q
  rw [hdel] at hflt
  have hzero : ((mongoDeleteOne coll q).1.filter q).length = 0 := by omega
  have hempty : (mongoDeleteOne coll q).1.filter q = [] :=
    List.length_eq_zero.mp hzero
  exact List.find?_eq_none.mpr (by
    intro x hx
    have := List.filter_eq_nil_iff.mp hempty x hx
    simpa using this)

/-- The delete contract claimed for every resource type: deleting a
missing logical id reports "not found" and leaves the store untouched on
every call; deleting an existing id (unique, per the data-model invariant)
succeeds exactly once, and the immediate retry reports "not found". -/
def DeleteIdempotent (del : List Doc → String → Bool × List Doc)
    (q : String → Doc → Bool) : Prop :=
  ∀ (coll : List Doc) (i : String),
    (coll.find? (q i) = Option.none → del coll i = (false, coll))
    ∧ (∀ d, coll.find? (q i) = some d → (coll.filter (q i)).length ≤ 1 →
        (del coll i).1 = true
        ∧ del (del coll i).2 i = (false, (del coll i).2))

theorem deleteByQuery_idempotent (q : Doc → Bool) (coll : List Doc) :
    (coll.find? q = Option.none →
      (decide ((mongoDeleteOne coll q).2 > 0), (mongoDeleteOne coll q).1)
        = (false, coll))
    ∧ (∀ d, coll.find? q = some d → (coll.filter q).length ≤ 1 →
        decide ((mongoDeleteOne coll q).2 > 0) = true
        ∧ (decide ((mongoDeleteOne (mongoDeleteOne coll q).1 q).2 > 0),
            (mongoDeleteOne (mongoDeleteOne coll q).1 q).1)
          = (false, (mongoDeleteOne coll q).1)) := by
  obtain ⟨hnone, hsome⟩ := deleteOne_idempotent coll q
  constructor
  · intro h
    rw [hnone h]
    rfl
  · intro d hfind huniq
    obtain ⟨hdel, hnone2⟩ := hsome d hfind huniq
    refine ⟨by simp [hdel], ?_⟩
    obtain ⟨hnone', -⟩ := deleteOne_idempotent (mongoDeleteOne coll q).1 q
    rw [hnone' hnone2]
    rfl

/-- C10: for every resource type's delete operation, deleting a missing
logical id returns "not found" (false) on every call with the store
untouched, and deleting an existing (unique) id succeeds exactly once,
with the immediate retry returning "not found". -/
theorem C10_delete_idempotence :
    DeleteIdempotent delete_program idMatch
    ∧ DeleteIdempotent delete_news idMatch
    ∧ DeleteIdempotent delete_partnership idMatch
    ∧ DeleteIdempotent delete_team_member idMatch
    ∧ DeleteIdempotent delete_event idMatch
    ∧ DeleteIdempotent delete_gallery_image idMatch
    ∧ DeleteIdempotent delete_faq idMatch
    ∧ DeleteIdempotent delete_contact idMatch
    ∧ DeleteIdempotent delete_static_content keyMatch := by
  refine ⟨?_, ?_, ?_, ?_, ?_, ?_, ?_, ?_, ?_⟩ <;>
    · intro coll i
      exact deleteByQuery_idempotent _ coll

/-- Witness for C10: deleting a missing program id reports "not found";
deleting an existing one succeeds once and then reports "not found". -/
theorem C10_delete_idempotence_witness :
    delete_program [[("id", Val.str "a")]] "zzz" = (false, [[("id", Val.str "a")]])
    ∧ (delete_program [[("id", Val.str "a")]] "a").1 = true
    ∧ delete_program (delete_program [[("id", Val.str "a")]] "a").2 "a"
        = (false, (delete_program [[("id", Val.str "a")]] "a").2) := by
  have h := C10_delete_idempotence.1 [[("id", Val.str "a")]] "zzz"
  have h2 := C10_delete_idempotence.1 [[("id", Val.str "a")]] "a"
  obtain ⟨hsucc, hretry⟩ := h2.2 [("id", Val.str "a")] (by decide) (by decide)
  exact ⟨h.1 (by decide), hsucc, hretry⟩
